import Mathlib

/-!
Verification development for the dbus-next library core
(signature engine, message bus routing, unmarshaller).

Each definition is a shallow embedding of the corresponding Python
function from `src/dbus_next/`; names follow the source.  Machine
integers are modelled as `Nat`/`Int`, byte buffers as `List Nat`,
Python `None`/objects as an explicit `DValue` type where needed, and
raised exceptions as `Except` results.
-/

namespace DBusNext

/-! ## Signature engine — `src/dbus_next/signature.py` -/

/-- A node of a signature parse tree (`SignatureType`): a token and children. -/
inductive SigType where
  | mk (token : Char) (children : List SigType)

mutual

def SigType.decEq : (a b : SigType) → Decidable (a = b)
  | .mk t cs, .mk t' cs' =>
    match instDecidableEqChar t t', SigType.decEqList cs cs' with
    | isTrue h1, isTrue h2 => isTrue (by rw [h1, h2])
    | isFalse h1, _ => isFalse (by intro h; cases h; exact h1 rfl)
    | _, isFalse h2 => isFalse (by intro h; cases h; exact h2 rfl)

def SigType.decEqList : (a b : List SigType) → Decidable (a = b)
  | [], [] => isTrue rfl
  | [], _ :: _ => isFalse (by intro h; cases h)
  | _ :: _, [] => isFalse (by intro h; cases h)
  | c :: cs, c' :: cs' =>
    match SigType.decEq c c', SigType.decEqList cs cs' with
    | isTrue h1, isTrue h2 => isTrue (by rw [h1, h2])
    | isFalse h1, _ => isFalse (by intro h; cases h; exact h1 rfl)
    | _, isFalse h2 => isFalse (by intro h; cases h; exact h2 rfl)

end

instance : DecidableEq SigType := SigType.decEq

instance {ε α : Type} [DecidableEq ε] [DecidableEq α] : DecidableEq (Except ε α) := fun a b =>
  match a, b with
  | .error e, .error e' => decidable_of_iff (e = e') (by simp)
  | .ok x, .ok y => decidable_of_iff (x = y) (by simp)
  | .error _, .ok _ => isFalse (by simp)
  | .ok _, .error _ => isFalse (by simp)

def SigType.token : SigType → Char
  | .mk t _ => t

def SigType.children : SigType → List SigType
  | .mk _ cs => cs

mutual

/-- `SignatureType._collapse`: serialize a parse-tree node back to its token string. -/
def SigType.collapse : SigType → List Char
  | .mk t cs =>
    if t ∉ ['a', '(', '{'] then [t]
    else
      let inner := SigType.collapseList cs
      if t = '(' then t :: inner ++ [')']
      else if t = '{' then t :: inner ++ ['}']
      else t :: inner

/-- Collapse of a list of children, in order (the `for child in self.children` loop). -/
def SigType.collapseList : List SigType → List Char
  | [] => []
  | c :: cs => SigType.collapse c ++ SigType.collapseList cs

end

/-- `SignatureType.parsable_tokens` — the token set accepted by `_parse_next`.
Transcribed from the source; note the source string does not contain `h`. -/
def parsableTokens : List Char := "ybnqiuxtdsogav(\x7b".toList

mutual

/-- `SignatureType._parse_next`, with explicit recursion fuel (the Python code
recurses on strictly shorter strings; fuel `2 * length + 2` always suffices).
Returns the parsed type (or `none` on empty input) and the unconsumed rest. -/
def parseNext : Nat → List Char → Except String (Option SigType × List Char)
  | 0, _ => .error "out of fuel"
  | _, [] => .ok (none, [])
  | fuel + 1, token :: rest =>
    if token ∉ parsableTokens then
      .error ("got unexpected token: " ++ String.mk [token])
    else if token = 'a' then
      match parseNext fuel rest with
      | .error e => .error e
      | .ok (child, sig) =>
        match child with
        | none => .error "missing type for array"
        | some c => .ok (some (.mk 'a' [c]), sig)
    else if token = '(' then
      parseStructBody fuel rest []
    else if token = '{' then
      match parseNext fuel rest with
      | .error e => .error e
      | .ok (keyChild, sig1) =>
        match keyChild with
        | none => .error "expected a simple type for dict entry key"
        | some k =>
          if k.children.length ≠ 0 then
            .error "expected a simple type for dict entry key"
          else
            match parseNext fuel sig1 with
            | .error e => .error e
            | .ok (valueChild, sig2) =>
              match valueChild with
              | none => .error "expected a value for dict entry"
              | some v =>
                match sig2 with
                | '}' :: sig3 => .ok (some (.mk '{' [k, v]), sig3)
                | _ => .error "missing closing \x7d for dict entry"
    else
      -- basic type
      .ok (some (.mk token []), rest)

/-- The `while True` loop of the `(` branch of `_parse_next`, accumulating
children already parsed.  (The Python code appends the child before testing for
`)`; a `None` child always comes with an empty rest, caught by the
`missing closing` check first.) -/
def parseStructBody : Nat → List Char → List SigType → Except String (Option SigType × List Char)
  | 0, _, _ => .error "out of fuel"
  | fuel + 1, sig, acc =>
    match parseNext fuel sig with
    | .error e => .error e
    | .ok (child, sig') =>
      match sig' with
      | [] => .error "missing closing \")\" for struct"
      | c :: sig'' =>
        let acc' := acc ++ child.toList
        if c = ')' then .ok (some (.mk '(' acc'), sig'')
        else parseStructBody fuel (c :: sig'') acc'

end

/-- `SignatureTree`: the original signature string together with the parsed
top-level types. -/
structure SignatureTree where
  signature : List Char
  types : List SigType
deriving DecidableEq

/-- The `while signature:` loop of `SignatureTree.__init__` (fuel bounds the
number of iterations; each iteration consumes at least one character). -/
def parseTypes : Nat → List Char → Except String (List SigType)
  | 0, _ => .error "out of fuel"
  | _, [] => .ok []
  | fuel + 1, sig =>
    match parseNext (2 * sig.length + 2) sig with
    | .error e => .error e
    | .ok (t, sig') =>
      match parseTypes fuel sig' with
      | .error e => .error e
      | .ok ts => .ok (t.toList ++ ts)

/-- `SignatureTree.__init__`: length bound check, then parse all types.
The `signature` attribute stores the input string unchanged. -/
def mkSignatureTree (sig : List Char) : Except String SignatureTree :=
  if sig.length > 0xff then .error "A signature must be less than 256 characters"
  else
    match parseTypes (sig.length + 1) sig with
    | .error e => .error e
    | .ok ts => .ok ⟨sig, ts⟩

/-- Concrete signature used to witness the round-trip theorem. -/
def c4input : List Char := ['a', '{', 's', 'v', '}', '(', 'i', 'i', ')', 'v']

/-- Its parse tree (computed by the embedded parser). -/
def c4tree : SignatureTree := (mkSignatureTree c4input).toOption.getD ⟨[], []⟩

/-! ## Python dict as insertion-ordered association list -/

/-- Python `d[k] = v`: replace in place when the key exists, else append. -/
def pyDictSet {α β : Type} [DecidableEq α] (d : List (α × β)) (k : α) (v : β) :
    List (α × β) :=
  if d.any (fun kv => kv.1 = k) then d.map (fun kv => if kv.1 = k then (k, v) else kv)
  else d ++ [(k, v)]

/-- Python `k in d`. -/
def pyDictContains {α β : Type} [DecidableEq α] (d : List (α × β)) (k : α) : Bool :=
  d.any (fun kv => kv.1 = k)

/-- Python `d[k]` (first — and, keys being unique, only — match). -/
def pyDictGet {α β : Type} [DecidableEq α] (d : List (α × β)) (k : α) : Option β :=
  (d.find? (fun kv => kv.1 = k)).map Prod.snd

/-- Python `del d[k]`. -/
def pyDictDel {α β : Type} [DecidableEq α] (d : List (α × β)) (k : α) : List (α × β) :=
  d.filter (fun kv => kv.1 ≠ k)

/-! ## Name-owner cache — `BaseMessageBus._process_message`, SIGNAL branch -/

/-- `src/dbus_next/message_bus.py` lines 611-615: the name-owner cache update
performed for a `NameOwnerChanged` signal from the daemon with body
`[name, old_owner, new_owner]`.  (Python string truthiness: non-empty.) -/
def nameOwnersAfterNameOwnerChanged (nameOwners : List (String × String))
    (name oldOwner newOwner : String) : List (String × String) :=
  if newOwner ≠ "" then pyDictSet nameOwners name newOwner
  else if pyDictContains nameOwners oldOwner then pyDictDel nameOwners oldOwner
  else nameOwners

/-! ## Socket setup — `BaseMessageBus._setup_socket` / `Connection.setup_socket` -/

inductive SetupErr where
  | invalidAddress (msg : String)
  | connectError (filename : String)
deriving DecidableEq

/-- One parsed DBus address list entry: `(transport, options)`. -/
structure AddressEntry where
  transport : String
  options : List (String × String)
deriving DecidableEq

/-- The `for transport, options in self._bus_address` loop of `_setup_socket`
(message_bus.py lines 479-497; identical logic in
`_private/connection.py` `Connection.setup_socket`).  `connectOk` models
whether `socket.connect(filename)` succeeds; a failed connect is recorded in
`err` and, mirroring the source, `err` is still consulted after the loop even
when a later entry connected successfully. -/
def setupSocketLoop (connectOk : String → Bool) :
    List AddressEntry → Option SetupErr → Except SetupErr Unit
  | [], err =>
    -- `if err: raise err`
    match err with
    | some e => .error e
    | none => .ok ()
  | entry :: rest, err =>
    match (if entry.transport = "unix" then
            match pyDictGet entry.options "path" with
            | some p => .ok p
            | none =>
              match pyDictGet entry.options "abstract" with
              | some a => .ok (String.mk ('\x00' :: a.toList))
              | none => .error (SetupErr.invalidAddress "got unix transport with unknown path specifier")
          else
            .error (SetupErr.invalidAddress ("got unknown address transport: " ++ entry.transport))
          : Except SetupErr String) with
    | .error e => .error e
    | .ok filename =>
      if connectOk filename then
        -- `break`, then after the loop `if err: raise err`
        match err with
        | some e => .error e
        | none => .ok ()
      else
        setupSocketLoop connectOk rest (some (SetupErr.connectError filename))

/-- `BaseMessageBus._setup_socket`: run the loop with `err = None`. -/
def setupSocket (connectOk : String → Bool) (addrs : List AddressEntry) :
    Except SetupErr Unit :=
  setupSocketLoop connectOk addrs none

/-- Concrete connect oracle for the C8 evaluation: only `/good` connects. -/
def connGoodOnly : String → Bool := fun f => f = "/good"

/-! ## Pending-call table — `_call`, `_process_message` (reply branch), `_finalize` -/

/-- `MessageFlag.NO_REPLY_EXPECTED` (constants.py). -/
def NO_REPLY_EXPECTED : Nat := 1

/-- What a pending-call callback was invoked with. -/
inductive CbArg where
  | reply (replySerial : Nat)   -- a METHOD_RETURN/ERROR whose reply_serial matched
  | disconnectErr               -- `handler(None, err)` during `_finalize`
  | noneNone                    -- `callback(None, None)` at the end of `_call`
deriving DecidableEq

/-- The slice of `BaseMessageBus` state relevant to pending method calls.
Callbacks are identified by numeric ids; `invocations` logs every invocation
of a callback in order.  (The registered `reply_notify` wrapper also refreshes
the name-owner cache on a reply; that cache is modelled separately above.) -/
structure BusState where
  serial : Nat
  methodReturnHandlers : List (Nat × Nat)
  disconnected : Bool
  invocations : List (Nat × CbArg)
deriving DecidableEq

/-- A method-call message as `_call` sees it: its serial and flags. -/
structure CallMsg where
  serial : Nat
  flags : Nat
deriving DecidableEq

/-- `BaseMessageBus.next_serial` (message_bus.py lines 353-362). -/
def busNextSerial (s : BusState) : BusState × Nat :=
  ({ s with serial := s.serial + 1 }, s.serial + 1)

/-- `BaseMessageBus._call` (message_bus.py lines 501-517): stamp a zero serial,
register `reply_notify` under the serial unconditionally, send, and invoke the
callback immediately with `(None, None)` when `NO_REPLY_EXPECTED` is set. -/
def busCall (s : BusState) (msg : CallMsg) (cb : Nat) : BusState × CallMsg :=
  let (s1, msgSerial) :=
    if msg.serial = 0 then busNextSerial s else (s, msg.serial)
  let msg' : CallMsg := { msg with serial := msgSerial }
  let s2 := { s1 with methodReturnHandlers := pyDictSet s1.methodReturnHandlers msgSerial cb }
  -- self.send(msg) — transmission itself is outside this state slice
  let s3 :=
    if msg'.flags &&& NO_REPLY_EXPECTED ≠ 0 then
      { s2 with invocations := s2.invocations ++ [(cb, CbArg.noneNone)] }
    else s2
  (s3, msg')

/-- `BaseMessageBus._process_message`, METHOD_RETURN/ERROR branch
(message_bus.py lines 633-639).  `handled` is the flag computed by the
user-message-handler loop earlier in `_process_message`; with no user message
handlers registered it is always `False`. -/
def processReply (s : BusState) (replySerial : Nat) (handled : Bool) : BusState :=
  if pyDictContains s.methodReturnHandlers replySerial then
    let s1 :=
      if ¬handled then
        match pyDictGet s.methodReturnHandlers replySerial with
        | some cb => { s with invocations := s.invocations ++ [(cb, CbArg.reply replySerial)] }
        | none => s
      else s
    { s1 with methodReturnHandlers := pyDictDel s1.methodReturnHandlers replySerial }
  else s

/-- `BaseMessageBus._finalize` (message_bus.py lines 408-422): invoke every
pending handler with the disconnection error, clear the table, mark
disconnected; a second call is a no-op.  (The `unexport` loop acts on the
exported-object table, outside this state slice.) -/
def busFinalize (s : BusState) : BusState :=
  if s.disconnected then s
  else
    { s with
      invocations := s.invocations ++ s.methodReturnHandlers.map (fun kv => (kv.2, CbArg.disconnectErr)),
      methodReturnHandlers := [],
      disconnected := true }

/-- An interleaving event on the receive side: an incoming METHOD_RETURN/ERROR
or the disconnect finalization. -/
inductive BusEvent where
  | reply (replySerial : Nat) (handled : Bool)
  | finalize
deriving DecidableEq

/-- Run a sequence of receive-side events against the bus state. -/
def busRun (s : BusState) : List BusEvent → BusState
  | [] => s
  | e :: es =>
    busRun (match e with
      | .reply rs handled => processReply s rs handled
      | .finalize => busFinalize s) es

/-- Number of invocations of callback `cb` in an invocation log. -/
def countCb (cb : Nat) (l : List (Nat × CbArg)) : Nat :=
  (l.filter (fun inv => inv.1 = cb)).length

/-- An event whose incoming reply was not intercepted by a user message
handler (always the case when no user message handlers are registered). -/
def eventUnhandled : BusEvent → Bool
  | .reply _ b => !b
  | .finalize => true

/-! ## Python values — message bodies, header-field values, `None` -/

/-- A Python object as it appears in message bodies and header fields.
Python `None` is `DValue.none`; a double is carried as its IEEE-754 bit
pattern (both decode paths produce identical bits from identical bytes). -/
inductive DValue where
  | none
  | int (i : Int)
  | bool (b : Bool)
  | string (s : String)
  | bytes (bs : List Nat)
  | double (bits : Nat)
  | list (xs : List DValue)
  | dictEntry (k v : DValue)
  | dict (entries : List DValue)
  | variant (sig : List Char) (val : DValue)

mutual

/-- Structural equality on decoded values (Python `==` for the value shapes
the codec produces). -/
def DValue.beq : DValue → DValue → Bool
  | .none, .none => true
  | .int i, .int j => i == j
  | .bool a, .bool b => a == b
  | .string a, .string b => a == b
  | .bytes a, .bytes b => a == b
  | .double a, .double b => a == b
  | .list xs, .list ys => DValue.beqList xs ys
  | .dictEntry k v, .dictEntry k' v' => DValue.beq k k' && DValue.beq v v'
  | .dict xs, .dict ys => DValue.beqList xs ys
  | .variant s v, .variant s' v' => s == s' && DValue.beq v v'
  | _, _ => false

def DValue.beqList : List DValue → List DValue → Bool
  | [], [] => true
  | x :: xs, y :: ys => DValue.beq x y && DValue.beqList xs ys
  | _, _ => false

end

/-- Python truthiness of the values above (`if value:`). -/
def DValue.truthy : DValue → Bool
  | .none => false
  | .int i => i != 0
  | .bool b => b
  | .string s => s != ""
  | .bytes bs => !bs.isEmpty
  | .double bits => bits != 0
  | .list xs => !xs.isEmpty
  | .dictEntry _ _ => true
  | .dict es => !es.isEmpty
  | .variant _ _ => true

/-- Python `result_dict[key] = value` on the decoded entry list: replace the
value of an existing equal key in place, else append. -/
def dvDictInsert (entries : List DValue) (k v : DValue) : List DValue :=
  if entries.any (fun e => match e with
      | .dictEntry k' _ => DValue.beq k' k
      | _ => false) then
    entries.map (fun e => match e with
      | .dictEntry k' v' => if DValue.beq k' k then .dictEntry k v else .dictEntry k' v'
      | other => other)
  else entries ++ [.dictEntry k v]

/-! ## Validators — `src/dbus_next/validators.py` -/

/-- `bus_name_re`: one element of a dotted bus name. -/
def busNameElementOk : List Char → Bool
  | [] => false
  | c :: rest =>
    (c.isAlpha || c = '_' || c = '-') &&
      rest.all (fun c => c.isAlphanum || c = '_' || c = '-')

/-- `path_re`: one element of an object path. -/
def pathElementOk (e : List Char) : Bool :=
  !e.isEmpty && e.all (fun c => c.isAlphanum || c = '_')

/-- `element_re`: one element of an interface/member name. -/
def elementOk : List Char → Bool
  | [] => false
  | c :: rest =>
    (c.isAlpha || c = '_') && rest.all (fun c => c.isAlphanum || c = '_')

/-- Python `str.split(sep)` for a single-character separator, on the character
list (`"".split` semantics: an empty input yields one empty part). -/
def splitOnChar (sep : Char) : List Char → List (List Char)
  | [] => [[]]
  | c :: rest =>
    let r := splitOnChar sep rest
    if c = sep then [] :: r
    else
      match r with
      | [] => [[c]]
      | g :: gs => (c :: g) :: gs

/-- `is_bus_name_valid` (for string arguments; a non-string is invalid).
Length and prefix tests are carried out on the character list. -/
def is_bus_name_valid (name : String) : Bool :=
  let cs := name.toList
  if cs.isEmpty || cs.length > 255 then false
  else if cs.headD ' ' = ':' then true
  else if cs.headD ' ' = '.' then false
  else if !cs.contains '.' then false
  else (splitOnChar '.' cs).all busNameElementOk

/-- `is_object_path_valid` (for string arguments). -/
def is_object_path_valid (path : String) : Bool :=
  let cs := path.toList
  if cs.isEmpty then false
  else if cs.headD ' ' ≠ '/' then false
  else if cs.length = 1 then true
  else (splitOnChar '/' (cs.drop 1)).all pathElementOk

/-- `is_interface_name_valid` (for string arguments). -/
def is_interface_name_valid (name : String) : Bool :=
  let cs := name.toList
  if cs.isEmpty || cs.length > 255 then false
  else if cs.headD ' ' = '.' then false
  else if !cs.contains '.' then false
  else (splitOnChar '.' cs).all elementOk

/-- `is_member_name_valid` (for string arguments). -/
def is_member_name_valid (name : String) : Bool :=
  if name.toList.isEmpty || name.toList.length > 255 then false
  else elementOk name.toList

def dvBusNameValid : DValue → Bool
  | .string s => is_bus_name_valid s
  | _ => false

def dvObjectPathValid : DValue → Bool
  | .string s => is_object_path_valid s
  | _ => false

def dvInterfaceNameValid : DValue → Bool
  | .string s => is_interface_name_valid s
  | _ => false

def dvMemberNameValid : DValue → Bool
  | .string s => is_member_name_valid s
  | _ => false

/-! ## Message — `src/dbus_next/message.py` -/

/-- `MessageType` values (constants.py). -/
def METHOD_CALL : Nat := 1

def METHOD_RETURN : Nat := 2

def ERROR : Nat := 3

def SIGNAL : Nat := 4

/-- `ErrorType.SERVICE_ERROR.value` (constants.py). -/
def SERVICE_ERROR : String := "com.dubstepdish.dbus.next.ServiceError"

/-- Python exceptions raised by the embedded code. -/
inductive PyErr where
  | invalidMessage (msg : String)
  | invalidSignature (msg : String)
  | valueError (msg : String)
  | typeError (msg : String)
  | indexError
  | exception (msg : String)
  | streamEnd
  | eofError
deriving DecidableEq

/-- A DBus `Message`.  Name-like fields hold the Python object passed to the
constructor (`DValue.none` for `None`); `signature` is the signature string
and `signatureTree` its parse. -/
structure DMessage where
  destination : DValue
  path : DValue
  interface : DValue
  member : DValue
  messageType : Nat
  flags : Nat
  errorName : DValue
  replySerial : DValue
  sender : DValue
  unixFds : List Nat
  signature : List Char
  signatureTree : SignatureTree
  body : DValue
  serial : Nat

/-- `Message.__init__` (message.py lines 11-66): store fields (re-parsing the
signature string), validate the name-like fields that are truthy, then check
the per-type required fields. -/
def mkMessage (destination path interface member : DValue) (messageType : Nat)
    (flags : Nat) (errorName replySerial sender : DValue) (unixFds : List Nat)
    (signature : List Char) (body : DValue) (serial : Nat) :
    Except PyErr DMessage :=
  match mkSignatureTree signature with
  | .error e => .error (.invalidSignature e)
  | .ok tree =>
    if destination.truthy && !dvBusNameValid destination then
      .error (.invalidMessage "invalid destination")
    else if interface.truthy && !dvInterfaceNameValid interface then
      .error (.invalidMessage "invalid interface name")
    else if path.truthy && !dvObjectPathValid path then
      .error (.invalidMessage "invalid path")
    else if member.truthy && !dvMemberNameValid member then
      .error (.invalidMessage "invalid member")
    else if errorName.truthy && !dvInterfaceNameValid errorName then
      .error (.invalidMessage "invalid error_name")
    else
      let msg : DMessage :=
        { destination := destination, path := path, interface := interface,
          member := member, messageType := messageType, flags := flags,
          errorName := errorName, replySerial := replySerial, sender := sender,
          unixFds := unixFds, signature := signature, signatureTree := tree,
          body := body, serial := serial }
      if messageType = METHOD_CALL then
        if !path.truthy then .error (.invalidMessage "missing required field: path")
        else if !member.truthy then .error (.invalidMessage "missing required field: member")
        else .ok msg
      else if messageType = SIGNAL then
        if !path.truthy then .error (.invalidMessage "missing required field: path")
        else if !member.truthy then .error (.invalidMessage "missing required field: member")
        else if !interface.truthy then .error (.invalidMessage "missing required field: interface")
        else .ok msg
      else if messageType = ERROR then
        if !errorName.truthy then .error (.invalidMessage "missing required field: error_name")
        else if !replySerial.truthy then .error (.invalidMessage "missing required field: reply_serial")
        else .ok msg
      else if messageType = METHOD_RETURN then
        if !replySerial.truthy then .error (.invalidMessage "missing required field: reply_serial")
        else .ok msg
      else .error (.invalidMessage "got unknown message type")

/-- `Message.new_error` (message.py lines 68-75). -/
def newError (msg : DMessage) (errorName : DValue) (errorText : DValue) :
    Except PyErr DMessage :=
  mkMessage msg.sender .none .none .none ERROR 0 errorName (.int msg.serial) .none
    [] ['s'] (.list [errorText]) 0

/-- `Message.new_method_return` (message.py lines 77-83).  `body` is whatever
Python object the caller passed (normally a list). -/
def newMethodReturn (msg : DMessage) (signature : List Char) (body : DValue) :
    Except PyErr DMessage :=
  mkMessage msg.sender .none .none .none METHOD_RETURN 0 .none (.int msg.serial) .none
    [] signature body 0

/-- `Message.new_signal` (message.py lines 85-93); `body = body if body else []`
is the identity on the list bodies used here. -/
def newSignal (path interface member : String) (signature : List Char)
    (body : List DValue) : Except PyErr DMessage :=
  mkMessage .none (.string path) (.string interface) (.string member) SIGNAL 0
    .none .none .none [] signature (.list body) 0

/-! ## Error replies for service-method exceptions — `BaseMessageBus._send_reply` -/

/-- The Python class of a raised exception, as `SendReply.__exit__` sees it.
The source compares with `type == DBusError` and `type == Exception`, i.e.
exact class identity: subclasses of either, and every other class, fall in
`other`. -/
inductive ExcClass where
  | dbusError
  | exception
  | other (name : String)
deriving DecidableEq

/-- A raised exception: its exact class, the DBusError name (validated at
raise time by `DBusError.__init__`, meaningful only for `dbusError`) and its
text. -/
structure RaisedExc where
  cls : ExcClass
  errName : String
  text : String

/-- `SendReply.__call__` (message_bus.py lines 557-561): drop the reply when
the original call set `NO_REPLY_EXPECTED`, else send it. -/
def sendReplyCall (msg : DMessage) (reply : DMessage) : List DMessage :=
  if msg.flags &&& NO_REPLY_EXPECTED ≠ 0 then [] else [reply]

/-- `SendReply.__exit__` (message_bus.py lines 563-572): convert an exception
raised by a service-method handler into an ERROR reply.  `type == DBusError`
sends `DBusError._as_message(msg)` = `Message.new_error(msg, self.type,
self.text)`; `type == Exception` sends a `ServiceError` carrying the
stringified cause and the traceback text `tb`; any other class matches
neither check, nothing is sent, and (since `__exit__` returns `None`) the
exception propagates to `_on_message`, which only logs it.  Returns the list
of messages passed to `bus.send`. -/
def sendReplyExit (msg : DMessage) (exc : Option RaisedExc) (tb : String) :
    Except PyErr (List DMessage) :=
  match exc with
  | Option.none => .ok []
  | some e =>
    match e.cls with
    | .dbusError =>
      match newError msg (.string e.errName) (.string e.text) with
      | .error err => .error err
      | .ok reply => .ok (sendReplyCall msg reply)
    | .exception =>
      match newError msg (.string SERVICE_ERROR)
          (.string ("The service interface raised an error: " ++ e.text ++ ".\n" ++ tb)) with
      | .error err => .error err
      | .ok reply => .ok (sendReplyCall msg reply)
    | .other _ => .ok []

/-! ## GetMachineId — `BaseMessageBus._default_get_machine_id_handler` -/

/-- The cached branch (message_bus.py lines 693-695): when `self._machine_id`
is already set, the handler replies with
`Message.new_method_return(msg, 's', self._machine_id)` — passing the cached
*string* itself where the body *list* is expected. -/
def defaultGetMachineIdCachedReply (machineId : String) (msg : DMessage) :
    Except PyErr DMessage :=
  newMethodReturn msg ['s'] (.string machineId)

/-- The first-fetch branch (message_bus.py lines 702-704): after the daemon's
METHOD_RETURN arrives, the handler replies with
`Message.new_method_return(msg, 's', [self._machine_id])`. -/
def defaultGetMachineIdFreshReply (machineId : String) (msg : DMessage) :
    Except PyErr DMessage :=
  newMethodReturn msg ['s'] (.list [.string machineId])

/-! ## Signal emission — `_interface_signal_notify` and `_handle_signal` -/

/-- `BaseMessageBus._interface_signal_notify` (message_bus.py lines 432-447):
scan the whole exported-object table for the interface — the loop never
breaks, so the last matching path wins — then send one `new_signal` there.
Exported interfaces are identified by numeric ids; a bus's exported-object
table is `path ↦ interface ids` in insertion order.  Returns the messages
passed to `send`. -/
def interfaceSignalNotify (pathExports : List (String × List Nat)) (ifaceId : Nat)
    (interfaceName member : String) (signature : List Char) (body : List DValue) :
    Except PyErr (List DMessage) :=
  let path := pathExports.foldl
    (fun acc p => if p.2.contains ifaceId then some p.1 else acc) Option.none
  match path with
  | Option.none => .error (.exception "Could not find interface on bus (this is a bug in dbus-next)")
  | some p =>
    match newSignal p interfaceName member signature body with
    | .error e => .error e
    | .ok m => .ok [m]

/-- Spec-side description of the path `_interface_signal_notify` picks: the
path of the *last* table entry holding the interface. -/
def lastMatchingExportPath (pathExports : List (String × List Nat)) (ifaceId : Nat) :
    Option String :=
  (pathExports.reverse.find? (fun p => p.2.contains ifaceId)).map Prod.fst

/-- `ServiceInterface._handle_signal` (service.py lines 270-284): normalize the
handler's return value into a body list, then notify every bus holding the
interface (each bus modelled by its exported-object table). -/
def handleSignal (buses : List (List (String × List Nat))) (ifaceId : Nat)
    (interfaceName member : String) (signature : List Char) (sigTypesLen : Nat)
    (body : DValue) : Except PyErr (List (List DMessage)) :=
  match (match body with
    | .none => .ok []
    | b =>
      if sigTypesLen = 0 then
        .error (PyErr.exception "Signal was not expected to return an argument")
      else if sigTypesLen = 1 then .ok [b]
      else
        match b with
        | .list xs => .ok xs
        | _ => .error (PyErr.exception "Expected signal to return a list of arguments")
    : Except PyErr (List DValue)) with
  | .error e => .error e
  | .ok bodyList =>
    buses.foldr (fun bus acc =>
      match acc with
      | .error e => .error e
      | .ok rest =>
        match interfaceSignalNotify bus ifaceId interfaceName member signature bodyList with
        | .error e => .error e
        | .ok msgs => .ok (msgs :: rest)) (.ok [])

/-- Placeholder message (never a valid DBus message; used only as a `getD`
default for concrete examples). -/
def dummyMessage : DMessage :=
  { destination := .none, path := .none, interface := .none, member := .none,
    messageType := 0, flags := 0, errorName := .none, replySerial := .none,
    sender := .none, unixFds := [], signature := [], signatureTree := ⟨[], []⟩,
    body := .list [], serial := 0 }

/-- A concrete incoming `GetMachineId` METHOD_CALL (sender `:1.4`, serial 3),
used to evaluate the standard handlers. -/
def c9msg : DMessage :=
  (mkMessage (.string ":1.0") (.string "/test/path")
    (.string "org.freedesktop.DBus.Peer") (.string "GetMachineId") METHOD_CALL 0
    .none .none (.string ":1.4") [] [] (.list []) 3).toOption.getD dummyMessage

/-- Messages sent by a concrete signal emission on an interface (id 5)
exported at the two aliased paths `/a` and `/b` of one bus. -/
def c10msgs : List DMessage :=
  (interfaceSignalNotify [("/a", [5]), ("/b", [5])] 5 "test.iface" "SomeSignal" []
    []).toOption.getD []

/-! ## Unmarshaller — `src/dbus_next/_private/unmarshaller.py`

Wire constants.  `_private/constants.py` itself is not under `src/`; the
values below are **Modelled from the spec:** §4.3 step 1 fixes the endian
tags `l`/`B` and protocol version 1, and the `HeaderField` codes are the
standard DBus field numbers in the order message.py emits them
(PATH=1 … UNIX_FDS=9). -/

def LITTLE_ENDIAN : Nat := 108

def BIG_ENDIAN : Nat := 66

def PROTOCOL_VERSION : Nat := 1

/-- `HeaderField` codes (PATH, INTERFACE, MEMBER, ERROR_NAME, REPLY_SERIAL,
DESTINATION, SENDER, SIGNATURE, UNIX_FDS). -/
def HF_PATH : Nat := 1

def HF_INTERFACE : Nat := 2

def HF_MEMBER : Nat := 3

def HF_ERROR_NAME : Nat := 4

def HF_REPLY_SERIAL : Nat := 5

def HF_DESTINATION : Nat := 6

def HF_SENDER : Nat := 7

def HF_SIGNATURE : Nat := 8

def HF_UNIX_FDS : Nat := 9

/-- `HEADER_SIGNATURE_SIZE` (unmarshaller.py line 38). -/
def HEADER_SIGNATURE_SIZE : Nat := 16

/-- `HEADER_ARRAY_OF_STRUCT_SIGNATURE_POSITION` (unmarshaller.py line 39). -/
def HEADER_ARRAY_OF_STRUCT_SIGNATURE_POSITION : Nat := 12

/-- The source's alignment idiom `-offset & (align - 1)` for power-of-two
alignments: the padding up to the next multiple of `align`. -/
def alignPad (offset align : Nat) : Nat := (align - offset % align) % align

/-- `bytes.decode()` on a decoded byte slice, modelled byte-for-byte as
Latin-1 (the signatures and names on the wire are ASCII; a non-UTF-8 slice
raises in Python and yields unparseable characters here — both are hard
decode failures). -/
def byteListToString (bs : List Nat) : String :=
  String.mk (bs.map Char.ofNat)

/-- `struct.unpack_from` of an unsigned integer of `size` bytes at `off` in
the given endianness; `none` when the buffer is too short (struct.error). -/
def readUIntAt (endian : Nat) (buf : List Nat) (off size : Nat) : Option Nat :=
  if off + size ≤ buf.length then
    let bytes := (buf.drop off).take size
    some (if endian = LITTLE_ENDIAN then bytes.foldr (fun b acc => acc * 256 + b) 0
          else bytes.foldl (fun acc b => acc * 256 + b) 0)
  else Option.none

/-- Two's-complement reading of an unsigned `size`-byte value. -/
def toSigned (v size : Nat) : Int :=
  if v < 2 ^ (8 * size - 1) then (v : Int) else (v : Int) - (2 : Int) ^ (8 * size)

/-- The fixed-size branch of `read_argument` (unmarshaller.py lines 216-219):
`self.offset += size + (-self.offset & (size - 1))`, then unpack the value at
`offset - size`.  Returns the new offset and the unsigned value. -/
def readFixedU (endian : Nat) (buf : List Nat) (offset size : Nat) :
    Except PyErr (Nat × Nat) :=
  let newOff := offset + size + alignPad offset size
  match readUIntAt endian buf (newOff - size) size with
  | Option.none => .error .indexError
  | some v => .ok (newOff, v)

/-- `Unmarshaller.read_string` (lines 156-161): u32 length, then the bytes and
the terminating NUL (Python slices clamp at the buffer end). -/
def readStringAt (endian : Nat) (buf : List Nat) (offset : Nat) :
    Except PyErr (Nat × DValue) :=
  match readFixedU endian buf offset 4 with
  | .error e => .error e
  | .ok (off1, strLength) =>
    .ok (off1 + strLength + 1, .string (byteListToString ((buf.drop off1).take strLength)))

/-- `Unmarshaller.read_signature` (lines 163-168): one length byte
(`view[offset]`, a strict index), the signature bytes, a NUL. -/
def readSignatureAt (buf : List Nat) (offset : Nat) :
    Except PyErr (Nat × List Nat) :=
  match buf.get? offset with
  | Option.none => .error .indexError
  | some signatureLen =>
    let o := offset + 1
    .ok (o + signatureLen + 1, (buf.drop o).take signatureLen)

/-- Generous recursion fuel for the body readers: every recursive
`read_argument` advances the offset by at least one byte, and signature-driven
nesting is bounded by 255 per signature, so this bound is never reached on
inputs the Python code terminates on.  Both decode modes use the same buffer,
hence the same fuel. -/
def readArgFuel (buf : List Nat) : Nat := 256 * (buf.length + 2)

mutual

/-- `Unmarshaller.read_argument` (lines 210-219) with the `readers` dispatch
table (`_complex_parsers` + `DBUS_TO_CTYPE`), as a function of the buffer and
the current offset; returns the new offset and the decoded Python value. -/
def readArg (endian : Nat) (buf : List Nat) :
    Nat → Nat → SigType → Except PyErr (Nat × DValue)
  | 0, _, _ => .error (.exception "out of fuel")
  | fuel + 1, offset, t =>
    if t.token = 'b' then
      -- read_boolean: bool(read_argument(UINT32))
      match readFixedU endian buf offset 4 with
      | .error e => .error e
      | .ok (off1, v) => .ok (off1, .bool (v ≠ 0))
    else if t.token = 'o' ∨ t.token = 's' then readStringAt endian buf offset
    else if t.token = 'g' then
      match readSignatureAt buf offset with
      | .error e => .error e
      | .ok (off1, sigBytes) => .ok (off1, .string (byteListToString sigBytes))
    else if t.token = 'a' then readArray endian buf fuel offset t
    else if t.token = '(' then
      -- read_struct: align 8, then the children in order
      match readArgList endian buf fuel (offset + alignPad offset 8) t.children with
      | .error e => .error e
      | .ok (off1, vs) => .ok (off1, .list vs)
    else if t.token = '{' then
      match readDictEntry endian buf fuel offset t with
      | .error e => .error e
      | .ok (off1, k, v) => .ok (off1, .dictEntry k v)
    else if t.token = 'v' then readVariant endian buf fuel offset
    else if t.token = 'y' then
      match readFixedU endian buf offset 1 with
      | .error e => .error e
      | .ok (off1, v) => .ok (off1, .int v)
    else if t.token = 'n' then
      match readFixedU endian buf offset 2 with
      | .error e => .error e
      | .ok (off1, v) => .ok (off1, .int (toSigned v 2))
    else if t.token = 'q' then
      match readFixedU endian buf offset 2 with
      | .error e => .error e
      | .ok (off1, v) => .ok (off1, .int v)
    else if t.token = 'i' then
      match readFixedU endian buf offset 4 with
      | .error e => .error e
      | .ok (off1, v) => .ok (off1, .int (toSigned v 4))
    else if t.token = 'u' ∨ t.token = 'h' then
      match readFixedU endian buf offset 4 with
      | .error e => .error e
      | .ok (off1, v) => .ok (off1, .int v)
    else if t.token = 'x' then
      match readFixedU endian buf offset 8 with
      | .error e => .error e
      | .ok (off1, v) => .ok (off1, .int (toSigned v 8))
    else if t.token = 't' then
      match readFixedU endian buf offset 8 with
      | .error e => .error e
      | .ok (off1, v) => .ok (off1, .int v)
    else if t.token = 'd' then
      -- a double is carried as its 8-byte pattern
      match readFixedU endian buf offset 8 with
      | .error e => .error e
      | .ok (off1, v) => .ok (off1, .double v)
    else .error (.exception "KeyError: unknown token")
termination_by structural fuel offset t => fuel

/-- `read_struct`'s comprehension: read each child type in order. -/
def readArgList (endian : Nat) (buf : List Nat) :
    Nat → Nat → List SigType → Except PyErr (Nat × List DValue)
  | 0, _, _ => .error (.exception "out of fuel")
  | _, offset, [] => .ok (offset, [])
  | fuel + 1, offset, t :: ts =>
    match readArg endian buf fuel offset t with
    | .error e => .error e
    | .ok (off1, v) =>
      match readArgList endian buf fuel off1 ts with
      | .error e => .error e
      | .ok (off2, vs) => .ok (off2, v :: vs)
termination_by structural fuel offset ts => fuel

/-- `Unmarshaller.read_dict_entry` (lines 179-181): align 8, then key and
value. -/
def readDictEntry (endian : Nat) (buf : List Nat) :
    Nat → Nat → SigType → Except PyErr (Nat × DValue × DValue)
  | 0, _, _ => .error (.exception "out of fuel")
  | fuel + 1, offset, t =>
    let off0 := offset + alignPad offset 8
    match t.children.get? 0, t.children.get? 1 with
    | some kt, some vt =>
      match readArg endian buf fuel off0 kt with
      | .error e => .error e
      | .ok (off1, k) =>
        match readArg endian buf fuel off1 vt with
        | .error e => .error e
        | .ok (off2, v) => .ok (off2, k, v)
    | _, _ => .error .indexError
termination_by structural fuel offset t => fuel

/-- `Unmarshaller.read_array` (lines 183-208). -/
def readArray (endian : Nat) (buf : List Nat) :
    Nat → Nat → SigType → Except PyErr (Nat × DValue)
  | 0, _, _ => .error (.exception "out of fuel")
  | fuel + 1, offset, t =>
    let off0 := offset + alignPad offset 4
    match readFixedU endian buf off0 4 with
    | .error e => .error e
    | .ok (off1, arrayLength) =>
      match t.children.get? 0 with
      | Option.none => .error .indexError
      | some child =>
        let off2 :=
          if "xtd\x7b(".toList.contains child.token then off1 + alignPad off1 8 else off1
        if child.token = 'y' then
          .ok (off2 + arrayLength, .bytes ((buf.drop off2).take arrayLength))
        else if child.token = '{' then
          readDictLoop endian buf fuel off2 off2 arrayLength child []
        else
          readListLoop endian buf fuel off2 off2 arrayLength child []
termination_by structural fuel offset t => fuel

/-- The `while self.offset - beginning_offset < array_length` loop for a
dict-entry array, accumulating into a Python dict. -/
def readDictLoop (endian : Nat) (buf : List Nat) :
    Nat → Nat → Nat → Nat → SigType → List DValue → Except PyErr (Nat × DValue)
  | 0, _, _, _, _, _ => .error (.exception "out of fuel")
  | fuel + 1, offset, beginning, arrayLength, child, acc =>
    if offset - beginning < arrayLength then
      match readDictEntry endian buf fuel offset child with
      | .error e => .error e
      | .ok (off1, k, v) =>
        readDictLoop endian buf fuel off1 beginning arrayLength child (dvDictInsert acc k v)
    else .ok (offset, .dict acc)
termination_by structural fuel offset beginning arrayLength child acc => fuel

/-- The element loop for a general array. -/
def readListLoop (endian : Nat) (buf : List Nat) :
    Nat → Nat → Nat → Nat → SigType → List DValue → Except PyErr (Nat × DValue)
  | 0, _, _, _, _, _ => .error (.exception "out of fuel")
  | fuel + 1, offset, beginning, arrayLength, child, acc =>
    if offset - beginning < arrayLength then
      match readArg endian buf fuel offset child with
      | .error e => .error e
      | .ok (off1, v) =>
        readListLoop endian buf fuel off1 beginning arrayLength child (acc ++ [v])
    else .ok (offset, .list acc)
termination_by structural fuel offset beginning arrayLength child acc => fuel

/-- `Unmarshaller.read_variant` (lines 170-173): read and parse the signature,
read the value, build the variant.  `SignatureTree._get` and the
`Variant(tree, value, verify=False)` construction are not under `src/`
(signature.py here predates them); **Modelled from the spec:** §4.1 parses the
signature string and §4.3 wraps the decoded value without re-verification. -/
def readVariant (endian : Nat) (buf : List Nat) :
    Nat → Nat → Except PyErr (Nat × DValue)
  | 0, _ => .error (.exception "out of fuel")
  | fuel + 1, offset =>
    match readSignatureAt buf offset with
    | .error e => .error e
    | .ok (off1, sigBytes) =>
      match mkSignatureTree (sigBytes.map Char.ofNat) with
      | .error e => .error (.invalidSignature e)
      | .ok tree =>
        match tree.types.head? with
        | Option.none => .error .indexError
        | some t0 =>
          match readArg endian buf fuel off1 t0 with
          | .error e => .error e
          | .ok (off2, v) => .ok (off2, .variant tree.signature v)
termination_by structural fuel offset => fuel

end

/-- `Unmarshaller.header_fields` (lines 221-236): the `a(yv)` field loop,
starting at `HEADER_ARRAY_OF_STRUCT_SIGNATURE_POSITION` so that the alignment
to 8 skips the array-length word.  Fields go into a Python dict keyed by the
field code; a Python assignment evaluates the value (the `read_argument`)
before converting the code (`HeaderField(field_0)`, ValueError on an unknown
code). -/
def headerFieldsLoop (endian : Nat) (buf : List Nat) :
    Nat → Nat → Nat → Nat → List (Nat × DValue) → Except PyErr (Nat × List (Nat × DValue))
  | 0, _, _, _, _ => .error (.exception "out of fuel")
  | fuel + 1, offset, beginning, headerLength, acc =>
    if offset - beginning < headerLength then
      let off1 := offset + alignPad offset 8 + 1
      match buf.get? (off1 - 1) with
      | Option.none => .error .indexError
      | some field0 =>
        match buf.get? off1 with
        | Option.none => .error .indexError
        | some signatureLen =>
          let o := off1 + 1
          let off2 := off1 + signatureLen + 2
          match mkSignatureTree (((buf.drop o).take signatureLen).map Char.ofNat) with
          | .error e => .error (.invalidSignature e)
          | .ok tree =>
            match tree.types.head? with
            | Option.none => .error .indexError
            | some t0 =>
              match readArg endian buf (readArgFuel buf) off2 t0 with
              | .error e => .error e
              | .ok (off3, v) =>
                if field0 < 1 ∨ 9 < field0 then
                  .error (.valueError "not a valid HeaderField")
                else
                  headerFieldsLoop endian buf fuel off3 beginning headerLength
                    (pyDictSet acc field0 v)
    else .ok (offset, acc)

/-- The decoding part of `Unmarshaller._read_body` (lines 266-285), a pure
function of the completed buffer and the fixed-header values: walk the header
fields, align to 8, parse the SIGNATURE header, read the body values when
`body_len` is non-zero, and construct the `Message`. -/
def decodeBody (endian : Nat) (buf : List Nat) (headerLen bodyLen mt fl serial : Nat)
    (unixFds : List Nat) : Except PyErr DMessage :=
  match headerFieldsLoop endian buf (headerLen + 1)
      HEADER_ARRAY_OF_STRUCT_SIGNATURE_POSITION
      HEADER_ARRAY_OF_STRUCT_SIGNATURE_POSITION headerLen [] with
  | .error e => .error e
  | .ok (off1, headers) =>
    let off2 := off1 + alignPad off1 8
    match (match pyDictGet headers HF_SIGNATURE with
      | Option.none => .ok ([] : List Char)
      | some (.string sg) => .ok sg.toList
      | some _ => .error (PyErr.typeError "signature header field is not a str")
      : Except PyErr (List Char)) with
    | .error e => .error e
    | .ok sigChars =>
      match mkSignatureTree sigChars with
      | .error e => .error (.invalidSignature e)
      | .ok tree =>
        match (if bodyLen ≠ 0 then
            readArgList endian buf (readArgFuel buf) off2 tree.types
          else .ok (off2, ([] : List DValue))) with
        | .error e => .error e
        | .ok (_, bodyList) =>
          mkMessage ((pyDictGet headers HF_DESTINATION).getD .none)
            ((pyDictGet headers HF_PATH).getD .none)
            ((pyDictGet headers HF_INTERFACE).getD .none)
            ((pyDictGet headers HF_MEMBER).getD .none)
            mt fl
            ((pyDictGet headers HF_ERROR_NAME).getD .none)
            ((pyDictGet headers HF_REPLY_SERIAL).getD .none)
            ((pyDictGet headers HF_SENDER).getD .none)
            unixFds tree.signature (.list bodyList) serial

/-- The streaming state of an `Unmarshaller` (stream mode, `sock=None`):
retained buffer, current offset, the bytes currently available from the
non-blocking stream, and the values remembered from a completed fixed-header
read.  `readers`/`can_cast` are represented by the remembered endianness. -/
structure UState where
  unixFds : List Nat
  buf : List Nat
  offset : Nat
  stream : List Nat
  messageType : Option Nat
  flag : Option Nat
  bodyLen : Option Nat
  serial : Option Nat
  headerLen : Option Nat
  msgLen : Option Nat
  endian : Option Nat
  message : Option DMessage

/-- A non-blocking `stream.read(n)`: `b''` for `n = 0`, `None` when no bytes
are available, else up to `n` of the available bytes. -/
def streamRead (s : UState) (n : Nat) : UState × Option (List Nat) :=
  if n = 0 then (s, some [])
  else if s.stream.isEmpty then (s, Option.none)
  else ({ s with stream := s.stream.drop n }, some (s.stream.take n))

/-- `Unmarshaller.read_to_offset` (lines 126-151): read the missing bytes in
one call; `b''` means EOF, `None` means try again later, and a short read
extends the buffer but reports `MarshallerStreamEndError`.  (In every state
the source reaches, `offset` is 0 while a message is incomplete, so the
natural-subtraction `missing` matches the Python arithmetic.) -/
def read_to_offset (s : UState) (target : Nat) : UState × Option PyErr :=
  let start_len := s.buf.length
  let missing := target - (start_len - s.offset)
  match streamRead s missing with
  | (s1, Option.none) => (s1, some PyErr.streamEnd)
  | (s1, some data) =>
    if data.isEmpty then (s1, some PyErr.eofError)
    else
      let s2 := { s1 with buf := s1.buf ++ data }
      if data.length + start_len ≠ target then (s2, some PyErr.streamEnd)
      else (s2, Option.none)

/-- The pure part of `Unmarshaller._read_header` (lines 238-261), a function
of the 16-byte fixed header: `(message_type, flag, body_len, serial,
header_len, msg_len, endian)`.  `MessageType(buffer[1])` raises ValueError
outside 1..4 (`MessageFlag` is an `IntFlag` and accepts any byte); the endian
and protocol-version checks follow; the three u32 lengths are unpacked with
the detected endianness; `msg_len` pads `header_len` to 8. -/
def parseFixedHeader (buffer : List Nat) : Except PyErr (Nat × Nat × Nat × Nat × Nat × Nat × Nat) :=
  let endian := buffer.getD 0 0
  let b1 := buffer.getD 1 0
  if b1 < 1 ∨ 4 < b1 then .error (.valueError "not a valid MessageType")
  else
    let fl := buffer.getD 2 0
    let protocolVersion := buffer.getD 3 0
    if endian ≠ LITTLE_ENDIAN ∧ endian ≠ BIG_ENDIAN then
      .error (.invalidMessage "Expecting endianness as the first byte")
    else if protocolVersion ≠ PROTOCOL_VERSION then
      .error (.invalidMessage "got unknown protocol version")
    else
      match readUIntAt endian buffer 4 4, readUIntAt endian buffer 8 4,
          readUIntAt endian buffer 12 4 with
      | some bodyLen, some serial, some headerLen =>
        .ok (b1, fl, bodyLen, serial, headerLen,
          headerLen + alignPad headerLen 8 + bodyLen, endian)
      | _, _, _ => .error .indexError

/-- `Unmarshaller._read_header`: fill the buffer to 16 bytes, then parse and
remember the fixed-header values.  (On a hard parse error the unmarshaller is
abandoned by `_message_reader`, so the partially assigned attributes of the
source are not observable.) -/
def readHeader (s : UState) : UState × Option PyErr :=
  match read_to_offset s HEADER_SIGNATURE_SIZE with
  | (s1, some e) => (s1, some e)
  | (s1, Option.none) =>
    match parseFixedHeader s1.buf with
    | .error e => (s1, some e)
    | .ok (mt, fl, bl, sr, hl, ml, en) =>
      ({ s1 with
          messageType := some mt, flag := some fl, bodyLen := some bl,
          serial := some sr, headerLen := some hl, msgLen := some ml,
          endian := some en },
       Option.none)

/-- `Unmarshaller._read_body`: fill the buffer to `16 + msg_len` bytes, then
decode (a pure function of the completed buffer and the remembered header). -/
def readBody (s : UState) : UState × Except PyErr DMessage :=
  match read_to_offset s (HEADER_SIGNATURE_SIZE + s.msgLen.getD 0) with
  | (s1, some e) => (s1, .error e)
  | (s1, Option.none) =>
    (s1, decodeBody (s1.endian.getD 0) s1.buf (s1.headerLen.getD 0) (s1.bodyLen.getD 0)
      (s1.messageType.getD 0) (s1.flag.getD 0) (s1.serial.getD 0) s1.unixFds)

/-- `Unmarshaller.unmarshall` (lines 287-300): read the header unless already
read, then the body; `MarshallerStreamEndError` means "resume later" and
returns `None`, any other exception propagates. -/
def unmarshall (s : UState) : UState × Except PyErr (Option DMessage) :=
  match (if s.messageType.isNone then readHeader s else (s, Option.none)) with
  | (s1, some e) =>
    (s1, if e = PyErr.streamEnd then .ok Option.none else .error e)
  | (s1, Option.none) =>
    match readBody s1 with
    | (s2, .error e) =>
      (s2, if e = PyErr.streamEnd then .ok Option.none else .error e)
    | (s2, .ok m) => ({ s2 with message := some m }, .ok (some m))

/-- A fresh `Unmarshaller` with nothing buffered and nothing readable. -/
def initUState : UState :=
  { unixFds := [], buf := [], offset := 0, stream := [], messageType := Option.none,
    flag := Option.none, bodyLen := Option.none, serial := Option.none,
    headerLen := Option.none, msgLen := Option.none, endian := Option.none,
    message := Option.none }

/-- One-shot decode: every byte of the frame is available to a single
`unmarshall` call. -/
def unmarshallOneShot (bs : List Nat) : Except PyErr (Option DMessage) :=
  (unmarshall { initUState with stream := bs }).2

/-- Incremental decode: make one more byte available before each `unmarshall`
call, stopping at the first call that completes a message or raises. -/
def feedBytes (s : UState) : List Nat → UState × Except PyErr (Option DMessage)
  | [] => (s, .ok Option.none)
  | b :: rest =>
    match unmarshall { s with stream := s.stream ++ [b] } with
    | (s', .ok Option.none) => feedBytes s' rest
    | (s', r) => (s', r)

/-- Canonical in-progress state while the fixed header is incomplete. -/
def headerPhaseState (B : List Nat) : UState :=
  { initUState with buf := B }

/-- Canonical in-progress state after the fixed header has been read. -/
def bodyPhaseState (B : List Nat) (mt fl bl sr hl ml en : Nat) : UState :=
  { initUState with
      buf := B, messageType := some mt, flag := some fl,
      bodyLen := some bl, serial := some sr, headerLen := some hl,
      msgLen := some ml, endian := some en }

/-- The 24-byte little-endian METHOD_RETURN frame (reply_serial 1, serial 2,
empty body) used to witness the resumable-decode theorem. -/
def c5frame : List Nat :=
  [108, 2, 0, 1, 0, 0, 0, 0, 2, 0, 0, 0, 8, 0, 0, 0,
   5, 1, 117, 0, 1, 0, 0, 0]

/-- The fixed header of `c5frame` (its first 16 bytes). -/
def c5buf16 : List Nat := [108, 2, 0, 1, 0, 0, 0, 0, 2, 0, 0, 0, 8, 0, 0, 0]

/-- The header-fields array of `c5frame` (its last 8 bytes). -/
def c5rest : List Nat := [5, 1, 117, 0, 1, 0, 0, 0]

/-- The unmarshaller state after `_read_header` has consumed the fixed header
of `c5frame`. -/
def c5state1 : UState :=
  { unixFds := [], buf := c5buf16, offset := 0, stream := c5rest,
    messageType := some 2, flag := some 0, bodyLen := some 0, serial := some 2,
    headerLen := some 8, msgLen := some 8, endian := some 108,
    message := Option.none }

/-- The unmarshaller state after `_read_body` has buffered all of `c5frame`. -/
def c5state2 : UState :=
  { c5state1 with buf := c5buf16 ++ c5rest, stream := [] }

/-- The `Message` that `c5frame` decodes to: a METHOD_RETURN with serial 2,
reply_serial 1 and an empty body. -/
def c5decoded : DMessage :=
  { destination := DValue.none, path := DValue.none, interface := DValue.none,
    member := DValue.none, messageType := 2, flags := 0,
    errorName := DValue.none, replySerial := DValue.int 1,
    sender := DValue.none, unixFds := [], signature := [],
    signatureTree := { signature := [], types := [] },
    body := DValue.list [], serial := 2 }

end DBusNext

namespace DBusNext

/-! ## Theorems -/

theorem collapseList_append (xs ys : List SigType) :
    SigType.collapseList (xs ++ ys) = SigType.collapseList xs ++ SigType.collapseList ys := by
  induction xs with
  | nil => simp [SigType.collapseList]
  | cons c cs ih => simp [SigType.collapseList, ih]

/-- `_parse_next` returns a `None` type only on empty input (with empty rest),
and the struct loop never returns a `None` type. -/
theorem parse_none (fuel : Nat) :
    (∀ s r, parseNext fuel s = .ok (none, r) → s = [] ∧ r = []) ∧
    (∀ s acc r, parseStructBody fuel s acc ≠ .ok (none, r)) := by
  induction fuel with
  | zero =>
    refine ⟨?_, ?_⟩ <;> intro s <;> simp [parseNext, parseStructBody]
  | succ f ih =>
    refine ⟨?_, ?_⟩
    · intro s r h
      match s with
      | [] =>
        simp only [parseNext, Except.ok.injEq, Prod.mk.injEq, true_and] at h
        exact ⟨rfl, h.symm⟩
      | tok :: rest =>
        simp only [parseNext] at h
        repeat' split at h
        all_goals first
          | simp at h
          | exact absurd h (ih.2 _ _ _)
    · intro s acc r h
      simp only [parseStructBody] at h
      repeat' split at h
      all_goals first
        | simp at h
        | exact absurd h (ih.2 _ _ _)

/-- Core round-trip property: a successfully parsed type collapses back to
exactly the substring it consumed, for any fuel. -/
theorem parse_collapse (fuel : Nat) :
    (∀ s t r, parseNext fuel s = .ok (some t, r) → t.collapse ++ r = s) ∧
    (∀ s acc res r, parseStructBody fuel s acc = .ok (res, r) →
      ∃ cs t, res = some t ∧ t = SigType.mk '(' (acc ++ cs) ∧
        SigType.collapseList cs ++ ')' :: r = s) := by
  induction fuel with
  | zero => refine ⟨?_, ?_⟩ <;> intro s <;> simp [parseNext, parseStructBody]
  | succ f ih =>
    refine ⟨?_, ?_⟩
    · intro s t r h
      match s with
      | [] => simp [parseNext] at h
      | tok :: rest =>
        simp only [parseNext] at h
        split at h
        · simp at h
        · split at h
          · -- array branch, tok = 'a'
            rename_i htok ha
            cases heq : parseNext f rest with
            | error e => rw [heq] at h; simp at h
            | ok p =>
              obtain ⟨child, sig⟩ := p
              rw [heq] at h
              cases child with
              | none => simp at h
              | some c =>
                simp only [Except.ok.injEq, Prod.mk.injEq] at h
                obtain ⟨ht, hr⟩ := h
                injection ht with ht
                subst ht; subst hr; subst ha
                have hc := ih.1 rest c sig heq
                simp only [SigType.collapse, SigType.collapseList]
                simpa using hc
          · split at h
            · -- struct branch, tok = '('
              rename_i htok ha hp
              obtain ⟨cs, t', hres, ht', hcoll⟩ := ih.2 rest [] (some t) r h
              obtain rfl : t = t' := by injection hres
              subst hp
              rw [ht']
              simp only [SigType.collapse, List.nil_append]
              simp only [List.mem_cons, List.mem_singleton, reduceCtorEq, or_self,
                not_false_eq_true, if_neg, if_pos, reduceIte]
              rw [← hcoll]
              simp
            · split at h
              · -- dict entry branch, tok = '{'
                rename_i htok ha hp hd
                cases heq1 : parseNext f rest with
                | error e => rw [heq1] at h; simp at h
                | ok p1 =>
                  obtain ⟨keyChild, sig1⟩ := p1
                  rw [heq1] at h
                  cases keyChild with
                  | none => simp at h
                  | some k =>
                    simp only at h
                    split at h
                    · simp at h
                    · cases heq2 : parseNext f sig1 with
                      | error e => rw [heq2] at h; simp at h
                      | ok p2 =>
                        obtain ⟨valueChild, sig2⟩ := p2
                        rw [heq2] at h
                        cases valueChild with
                        | none => simp at h
                        | some v =>
                          simp only at h
                          split at h
                          · simp only [Except.ok.injEq, Prod.mk.injEq] at h
                            obtain ⟨ht, hr⟩ := h
                            injection ht with ht
                            subst ht; subst hr; subst hd
                            have hk := ih.1 rest k sig1 heq1
                            have hv := ih.1 sig1 v _ heq2
                            simp only [SigType.collapse, SigType.collapseList]
                            rw [← hk, ← hv]
                            simp
                          · simp at h
              · -- basic type
                rename_i htok ha hp hd
                simp only [Except.ok.injEq, Prod.mk.injEq] at h
                obtain ⟨ht, hr⟩ := h
                injection ht with ht
                subst ht; subst hr
                simp [SigType.collapse, ha, hp, hd]
    · intro s acc res r h
      simp only [parseStructBody] at h
      cases heq : parseNext f s with
      | error e => rw [heq] at h; simp at h
      | ok p =>
        obtain ⟨child, sig'⟩ := p
        rw [heq] at h
        cases sig' with
        | nil => simp at h
        | cons c sig'' =>
          simp only at h
          split at h
          · -- c = ')': the struct is closed here
            rename_i hc
            simp only [Except.ok.injEq, Prod.mk.injEq] at h
            obtain ⟨hres, hr⟩ := h
            cases child with
            | none =>
              obtain ⟨hs, hsig⟩ := (parse_none f).1 s (c :: sig'') heq
              simp at hsig
            | some ct =>
              refine ⟨[ct], SigType.mk '(' (acc ++ [ct]), ?_, rfl, ?_⟩
              · simpa using hres.symm
              · have hct := ih.1 s ct (c :: sig'') heq
                subst hr
                simp only [SigType.collapseList]
                rw [← hct, hc]
                simp
          · -- continue the loop
            rename_i hc
            obtain ⟨cs', t', hres, ht', hcoll⟩ := ih.2 (c :: sig'') (acc ++ child.toList) res r h
            cases child with
            | none =>
              obtain ⟨hs, hsig⟩ := (parse_none f).1 s (c :: sig'') heq
              simp at hsig
            | some ct =>
              refine ⟨ct :: cs', t', hres, ?_, ?_⟩
              · rw [ht']; simp
              · have hct := ih.1 s ct (c :: sig'') heq
                rw [← hct]
                simp only [SigType.collapseList]
                rw [List.append_assoc, hcoll]

/-- The `SignatureTree.__init__` loop: collapsing all parsed top-level types in
order reproduces the input string. -/
theorem parseTypes_collapse : ∀ {fuel : Nat} {s : List Char} {ts : List SigType},
    parseTypes fuel s = .ok ts → SigType.collapseList ts = s := by
  intro fuel
  induction fuel with
  | zero => intro s ts h; simp [parseTypes] at h
  | succ f ih =>
    intro s ts h
    match s with
    | [] =>
      simp only [parseTypes, Except.ok.injEq] at h
      subst h; rfl
    | x :: xs =>
      simp only [parseTypes] at h
      cases heq : parseNext (2 * (x :: xs).length + 2) (x :: xs) with
      | error e => rw [heq] at h; simp at h
      | ok p =>
        obtain ⟨t, sig'⟩ := p
        rw [heq] at h
        dsimp only at h
        cases hrec : parseTypes f sig' with
        | error e => rw [hrec] at h; simp at h
        | ok ts' =>
          rw [hrec] at h
          simp only [Except.ok.injEq] at h
          subst h
          cases t with
          | none =>
            obtain ⟨hs, _⟩ := (parse_none _).1 _ _ heq
            simp at hs
          | some t0 =>
            have h1 := (parse_collapse _).1 _ _ _ heq
            have h2 := ih hrec
            rw [Option.toList_some, collapseList_append, h2]
            simpa [SigType.collapseList] using h1

/-- C4: for every string accepted by the signature parser, serialization
reproduces the input exactly.  First conjunct: every successfully parsed node
collapses back to precisely the prefix it consumed (instantiating `s` at any
suffix gives the property for every node of the tree).  Second conjunct: a
successfully built `SignatureTree` stores the original string as its
`signature`, the concatenated collapses of its top-level types equal the
original string (so token counts and the number of top-level types are
preserved), and re-parsing the serialized form yields the same tree. -/
theorem signature_parse_roundtrip (s : List Char) :
    (∀ fuel t r, parseNext fuel s = .ok (some t, r) → t.collapse ++ r = s) ∧
    (∀ tr, mkSignatureTree s = .ok tr →
      tr.signature = s ∧ SigType.collapseList tr.types = s ∧
      mkSignatureTree (SigType.collapseList tr.types) = .ok tr) := by
  constructor
  · intro fuel t r h
    exact (parse_collapse fuel).1 s t r h
  · intro tr h
    simp only [mkSignatureTree] at h
    split at h
    · simp at h
    · cases hp : parseTypes (s.length + 1) s with
      | error e => rw [hp] at h; simp at h
      | ok ts =>
        rw [hp] at h
        simp only [Except.ok.injEq] at h
        subst h
        have hc : SigType.collapseList ts = s := parseTypes_collapse hp
        refine ⟨rfl, hc, ?_⟩
        rw [hc]
        simp only [mkSignatureTree]
        split
        · omega
        · rw [hp]

/-- Witness for C4 at the concrete signature `a{sv}(ii)v`. -/
theorem signature_parse_roundtrip_witness :
    c4tree.signature = c4input ∧ SigType.collapseList c4tree.types = c4input ∧
    mkSignatureTree (SigType.collapseList c4tree.types) = .ok c4tree :=
  (signature_parse_roundtrip c4input).2 c4tree (by decide)

/-- C1 (code bug): the parser's token set omits `h` (UNIX_FD), so any signature
with `h` at a position where a complete type may start is rejected with
`InvalidSignatureError` instead of producing a UNIX_FD leaf: `h` is not treated
like the tokens in `ybnqiuxtdsogv`. -/
theorem parse_h_rejected :
    'h' ∉ parsableTokens ∧
    parseNext 4 ['h'] = .error "got unexpected token: h" ∧
    mkSignatureTree ['h'] = .error "got unexpected token: h" ∧
    mkSignatureTree ['a', 'h'] = .error "got unexpected token: h" ∧
    (∀ c ∈ "ybnqiuxtdsogv".toList, c ≠ 'h' →
      mkSignatureTree [c] = .ok ⟨[c], [SigType.mk c []]⟩) := by
  refine ⟨by decide, by decide, by decide, by decide, by decide⟩

/-- C6 (code bug): on a `NameOwnerChanged` signal with an empty `new_owner`
the code deletes the cache key `old_owner` (a unique name, normally not a key
of the well-known-name-keyed cache) instead of `name`.  At the failing input —
cache `{org.test.name: :1.5}`, body `[org.test.name, :1.5, ""]` — the entry
keyed by `name` survives, contrary to the claim; with a cache that does happen
to contain the key `:1.5`, that unrelated entry is deleted instead.  The
non-empty `new_owner` branch matches the claim. -/
theorem name_owner_cache_stale_entry :
    nameOwnersAfterNameOwnerChanged [("org.test.name", ":1.5")] "org.test.name" ":1.5" "" =
      [("org.test.name", ":1.5")] ∧
    pyDictContains
      (nameOwnersAfterNameOwnerChanged [("org.test.name", ":1.5")] "org.test.name" ":1.5" "")
      "org.test.name" = true ∧
    nameOwnersAfterNameOwnerChanged [(":1.5", ":1.5"), ("org.test.name", ":1.5")]
      "org.test.name" ":1.5" "" = [("org.test.name", ":1.5")] ∧
    nameOwnersAfterNameOwnerChanged [] "org.test.name" "" ":1.8" =
      [("org.test.name", ":1.8")] := by
  decide

/-- C8 (code bug): with the address list `unix:path=/bad;unix:path=/good`
where connecting to `/bad` fails and connecting to `/good` succeeds, the code
still raises the recorded error from the first entry — `err` is never cleared
on a successful connect — contrary to the claim that the first success
proceeds.  A single succeeding entry works. -/
theorem setup_socket_raises_despite_success :
    connGoodOnly "/good" = true ∧
    setupSocket connGoodOnly
      [⟨"unix", [("path", "/bad")]⟩, ⟨"unix", [("path", "/good")]⟩] =
      .error (SetupErr.connectError "/bad") ∧
    setupSocket connGoodOnly [⟨"unix", [("path", "/good")]⟩] = .ok () := by
  decide

/-- C3 (code bug): `_call` registers the pending-call handler unconditionally,
so a `NO_REPLY_EXPECTED` method call (flags bit 1) does allocate an entry
keyed by the message's serial, contrary to the claim.  The callback moreover
fires immediately with `(None, None)` and then a second time with the
disconnect error when `_finalize` drains the leaked entry. -/
theorem no_reply_expected_allocates_pending_entry :
    (busCall ⟨5, [], false, []⟩ ⟨0, NO_REPLY_EXPECTED⟩ 7).1.methodReturnHandlers = [(6, 7)] ∧
    (busCall ⟨5, [], false, []⟩ ⟨0, NO_REPLY_EXPECTED⟩ 7).2.serial = 6 ∧
    (busCall ⟨5, [], false, []⟩ ⟨0, NO_REPLY_EXPECTED⟩ 7).1.invocations =
      [(7, CbArg.noneNone)] ∧
    (busFinalize (busCall ⟨5, [], false, []⟩ ⟨0, NO_REPLY_EXPECTED⟩ 7).1).invocations =
      [(7, CbArg.noneNone), (7, CbArg.disconnectErr)] ∧
    countCb 7 (busFinalize (busCall ⟨5, [], false, []⟩ ⟨0, NO_REPLY_EXPECTED⟩ 7).1).invocations =
      2 := by
  decide

theorem countCb_append (cb : Nat) (l1 l2 : List (Nat × CbArg)) :
    countCb cb (l1 ++ l2) = countCb cb l1 + countCb cb l2 := by
  simp [countCb, List.filter_append]

theorem pyDictContains_iff {α β : Type} [DecidableEq α] (d : List (α × β)) (k : α) :
    pyDictContains d k = true ↔ ∃ v, (k, v) ∈ d := by
  simp only [pyDictContains, List.any_eq_true, decide_eq_true_eq]
  constructor
  · rintro ⟨⟨a, b⟩, hmem, heq⟩
    subst heq
    exact ⟨b, hmem⟩
  · rintro ⟨v, hv⟩
    exact ⟨(k, v), hv, rfl⟩

theorem pyDictGet_mem {α β : Type} [DecidableEq α] {d : List (α × β)} {k : α} {v : β}
    (hnd : (d.map Prod.fst).Nodup) (hmem : (k, v) ∈ d) : pyDictGet d k = some v := by
  induction d with
  | nil => simp at hmem
  | cons a rest ih =>
    obtain ⟨a1, a2⟩ := a
    simp only [List.map_cons, List.nodup_cons] at hnd
    rcases List.mem_cons.mp hmem with h | h
    · injection h with h1 h2
      subst h1; subst h2
      simp [pyDictGet, List.find?]
    · have hne : a1 ≠ k := by
        intro heq
        exact hnd.1 (heq ▸ (List.mem_map.mpr ⟨(k, v), h, rfl⟩))
      simp only [pyDictGet]
      rw [List.find?_cons_of_neg _ (by simp [hne])]
      simpa [pyDictGet] using ih hnd.2 h

theorem pyDictDel_sublist {α β : Type} [DecidableEq α] (d : List (α × β)) (k : α) :
    (pyDictDel d k).Sublist d :=
  List.filter_sublist d

theorem mem_pyDictDel_of_ne {α β : Type} [DecidableEq α] {d : List (α × β)} {k k' : α}
    {v : β} (hne : k' ≠ k) : (k', v) ∈ pyDictDel d k ↔ (k', v) ∈ d := by
  simp [pyDictDel, List.mem_filter, hne]

theorem not_mem_pyDictDel_self {α β : Type} [DecidableEq α] {d : List (α × β)} {k : α}
    {v : β} : (k, v) ∉ pyDictDel d k := by
  simp [pyDictDel, List.mem_filter]

/-- One step of `_process_message` for an un-intercepted METHOD_RETURN/ERROR
preserves the pending-call invariants for a registered entry `(ser, cb)`. -/
theorem processReply_step
    {table : List (Nat × Nat)} {ser cb : Nat}
    (hserN : (table.map Prod.fst).Nodup) (hcbN : (table.map Prod.snd).Nodup)
    (hmem : (ser, cb) ∈ table)
    {s : BusState} (rs : Nat)
    (hsub : s.methodReturnHandlers.Sublist table)
    (hdisc : s.disconnected = true → s.methodReturnHandlers = [])
    (hcount : countCb cb s.invocations +
      (if (ser, cb) ∈ s.methodReturnHandlers then 1 else 0) = 1)
    (hwf : ∀ inv ∈ s.invocations, inv.1 = cb →
      inv.2 = CbArg.reply ser ∨ inv.2 = CbArg.disconnectErr) :
    (processReply s rs false).methodReturnHandlers.Sublist table ∧
    (processReply s rs false).disconnected = s.disconnected ∧
    ((processReply s rs false).disconnected = true →
      (processReply s rs false).methodReturnHandlers = []) ∧
    countCb cb (processReply s rs false).invocations +
      (if (ser, cb) ∈ (processReply s rs false).methodReturnHandlers then 1 else 0) = 1 ∧
    (∀ inv ∈ (processReply s rs false).invocations, inv.1 = cb →
      inv.2 = CbArg.reply ser ∨ inv.2 = CbArg.disconnectErr) := by
  by_cases hc : pyDictContains s.methodReturnHandlers rs = true
  · obtain ⟨cbx, hcbx⟩ := (pyDictContains_iff _ _).mp hc
    have hfstN : (s.methodReturnHandlers.map Prod.fst).Nodup :=
      hserN.sublist (hsub.map Prod.fst)
    have hget : pyDictGet s.methodReturnHandlers rs = some cbx := pyDictGet_mem hfstN hcbx
    have hred : processReply s rs false =
        { s with
          invocations := s.invocations ++ [(cbx, CbArg.reply rs)],
          methodReturnHandlers := pyDictDel s.methodReturnHandlers rs } := by
      simp [processReply, hc, hget]
    rw [hred]
    have hsub' : (pyDictDel s.methodReturnHandlers rs).Sublist table :=
      (pyDictDel_sublist _ _).trans hsub
    have hdisc' : s.disconnected = true → pyDictDel s.methodReturnHandlers rs = [] := by
      intro h
      rw [hdisc h]
      rfl
    by_cases hrs : rs = ser
    · subst hrs
      -- the matched entry is ours: cbx = cb
      have hcbx_table : (rs, cbx) ∈ table := hsub.subset hcbx
      have : (rs, cb) = (rs, cbx) :=
        List.inj_on_of_nodup_map hserN hmem hcbx_table rfl
      obtain rfl : cb = cbx := by injection this
      have hpres : (rs, cb) ∈ s.methodReturnHandlers := hcbx
      have hcount0 : countCb cb s.invocations = 0 := by
        rw [if_pos hpres] at hcount
        omega
      refine ⟨hsub', rfl, hdisc', ?_, ?_⟩
      · rw [countCb_append, hcount0, if_neg not_mem_pyDictDel_self]
        simp [countCb]
      · intro inv hinv h1
        rcases List.mem_append.mp hinv with h | h
        · exact hwf inv h h1
        · simp only [List.mem_singleton] at h
          subst h
          exact Or.inl rfl
    · -- a different serial: its callback is not ours
      have hcbx_ne : cbx ≠ cb := by
        intro heq
        subst heq
        have hcbx_table : (rs, cbx) ∈ table := hsub.subset hcbx
        have : (rs, cbx) = (ser, cbx) :=
          List.inj_on_of_nodup_map hcbN hcbx_table hmem rfl
        exact hrs (by injection this)
      refine ⟨hsub', rfl, hdisc', ?_, ?_⟩
      · dsimp only
        rw [countCb_append]
        have h0 : countCb cb [(cbx, CbArg.reply rs)] = 0 := by
          simp [countCb, hcbx_ne]
        rw [h0]
        have hmemiff : ((ser, cb) ∈ pyDictDel s.methodReturnHandlers rs) ↔
            ((ser, cb) ∈ s.methodReturnHandlers) :=
          mem_pyDictDel_of_ne (fun h => hrs h.symm)
        simp only [hmemiff, Nat.add_zero]
        exact hcount
      · intro inv hinv h1
        rcases List.mem_append.mp hinv with h | h
        · exact hwf inv h h1
        · simp only [List.mem_singleton] at h
          subst h
          exact absurd h1 hcbx_ne
  · have hred : processReply s rs false = s := by
      simp only [processReply]
      rw [if_neg (by simpa using hc)]
    rw [hred]
    exact ⟨hsub, rfl, hdisc, hcount, hwf⟩

/-- `_finalize` preserves the pending-call invariants, invoking each still
pending handler exactly once with the disconnect error. -/
theorem busFinalize_step
    {table : List (Nat × Nat)} {ser cb : Nat}
    (hserN : (table.map Prod.fst).Nodup) (hcbN : (table.map Prod.snd).Nodup)
    (hmem : (ser, cb) ∈ table)
    {s : BusState}
    (hsub : s.methodReturnHandlers.Sublist table)
    (hdisc : s.disconnected = true → s.methodReturnHandlers = [])
    (hcount : countCb cb s.invocations +
      (if (ser, cb) ∈ s.methodReturnHandlers then 1 else 0) = 1)
    (hwf : ∀ inv ∈ s.invocations, inv.1 = cb →
      inv.2 = CbArg.reply ser ∨ inv.2 = CbArg.disconnectErr) :
    (busFinalize s).methodReturnHandlers.Sublist table ∧
    ((busFinalize s).disconnected = true → (busFinalize s).methodReturnHandlers = []) ∧
    countCb cb (busFinalize s).invocations +
      (if (ser, cb) ∈ (busFinalize s).methodReturnHandlers then 1 else 0) = 1 ∧
    (∀ inv ∈ (busFinalize s).invocations, inv.1 = cb →
      inv.2 = CbArg.reply ser ∨ inv.2 = CbArg.disconnectErr) ∧
    (busFinalize s).disconnected = true := by
  by_cases hd : s.disconnected = true
  · have hred : busFinalize s = s := by simp [busFinalize, hd]
    rw [hred]
    exact ⟨hsub, hdisc, hcount, hwf, hd⟩
  · have hred : busFinalize s =
        { s with
          invocations := s.invocations ++
            s.methodReturnHandlers.map (fun kv => (kv.2, CbArg.disconnectErr)),
          methodReturnHandlers := [],
          disconnected := true } := by
      simp [busFinalize, hd]
    rw [hred]
    have hdrained : countCb cb
        (s.methodReturnHandlers.map (fun kv => (kv.2, CbArg.disconnectErr))) =
        (if (ser, cb) ∈ s.methodReturnHandlers then 1 else 0) := by
      have hcount_eq : countCb cb
          (s.methodReturnHandlers.map (fun kv => (kv.2, CbArg.disconnectErr))) =
          s.methodReturnHandlers.countP (fun kv => kv.2 = cb) := by
        simp [countCb, List.filter_map, Function.comp_def, List.countP_eq_length_filter]
      rw [hcount_eq]
      by_cases hpres : (ser, cb) ∈ s.methodReturnHandlers
      · rw [if_pos hpres]
        have hsndN : (s.methodReturnHandlers.map Prod.snd).Nodup :=
          hcbN.sublist (hsub.map Prod.snd)
        have hcb_mem : cb ∈ s.methodReturnHandlers.map Prod.snd :=
          List.mem_map.mpr ⟨(ser, cb), hpres, rfl⟩
        have hle : (s.methodReturnHandlers.map Prod.snd).count cb ≤ 1 :=
          List.nodup_iff_count_le_one.mp hsndN cb
        have hge : 1 ≤ (s.methodReturnHandlers.map Prod.snd).count cb :=
          List.count_pos_iff.mpr hcb_mem
        have hone : (s.methodReturnHandlers.map Prod.snd).count cb = 1 := by omega
        calc s.methodReturnHandlers.countP (fun kv => kv.2 = cb)
            = (s.methodReturnHandlers.map Prod.snd).count cb := by
              rw [List.count, List.countP_map]
              apply List.countP_congr
              intro kv _
              simp [beq_eq_decide, Function.comp_def]
          _ = 1 := hone
      · rw [if_neg hpres]
        rw [List.countP_eq_zero]
        intro kv hkv
        simp only [decide_eq_true_eq]
        intro hkv2
        have hkv_table : kv ∈ table := hsub.subset hkv
        have : kv = (ser, cb) :=
          List.inj_on_of_nodup_map hcbN hkv_table hmem (by simpa using hkv2)
        exact hpres (this ▸ hkv)
    refine ⟨List.nil_sublist _, fun _ => rfl, ?_, ?_, rfl⟩
    · rw [countCb_append, hdrained]
      simpa using hcount
    · intro inv hinv h1
      rcases List.mem_append.mp hinv with h | h
      · exact hwf inv h h1
      · obtain ⟨kv, _, hkv⟩ := List.mem_map.mp h
        subst hkv
        exact Or.inr rfl

/-- Running any interleaving of un-intercepted replies and finalizations
preserves the pending-call invariants; if a finalize occurs the bus ends up
disconnected. -/
theorem busRun_inv
    {table : List (Nat × Nat)} {ser cb : Nat}
    (hserN : (table.map Prod.fst).Nodup) (hcbN : (table.map Prod.snd).Nodup)
    (hmem : (ser, cb) ∈ table) :
    ∀ (events : List BusEvent) (s : BusState),
      (∀ e ∈ events, eventUnhandled e = true) →
      s.methodReturnHandlers.Sublist table →
      (s.disconnected = true → s.methodReturnHandlers = []) →
      countCb cb s.invocations +
        (if (ser, cb) ∈ s.methodReturnHandlers then 1 else 0) = 1 →
      (∀ inv ∈ s.invocations, inv.1 = cb →
        inv.2 = CbArg.reply ser ∨ inv.2 = CbArg.disconnectErr) →
      (busRun s events).methodReturnHandlers.Sublist table ∧
      ((busRun s events).disconnected = true → (busRun s events).methodReturnHandlers = []) ∧
      countCb cb (busRun s events).invocations +
        (if (ser, cb) ∈ (busRun s events).methodReturnHandlers then 1 else 0) = 1 ∧
      (∀ inv ∈ (busRun s events).invocations, inv.1 = cb →
        inv.2 = CbArg.reply ser ∨ inv.2 = CbArg.disconnectErr) ∧
      ((BusEvent.finalize ∈ events ∨ s.disconnected = true) →
        (busRun s events).disconnected = true) := by
  intro events
  induction events with
  | nil =>
    intro s _ hsub hdisc hcount hwf
    refine ⟨hsub, hdisc, hcount, hwf, ?_⟩
    rintro (h | h)
    · simp at h
    · exact h
  | cons e es ih =>
    intro s hunh hsub hdisc hcount hwf
    have hunh_es : ∀ e' ∈ es, eventUnhandled e' = true :=
      fun e' he' => hunh e' (List.mem_cons_of_mem _ he')
    cases e with
    | reply rs b =>
      have hb : b = false := by
        have := hunh (BusEvent.reply rs b) (List.mem_cons_self _ _)
        simpa [eventUnhandled] using this
      subst hb
      obtain ⟨h1, h2, h3, h4, h5⟩ :=
        processReply_step hserN hcbN hmem rs hsub hdisc hcount hwf
      have hrun : busRun s (BusEvent.reply rs false :: es) =
          busRun (processReply s rs false) es := rfl
      rw [hrun]
      obtain ⟨g1, g2, g3, g4, g5⟩ := ih (processReply s rs false) hunh_es h1 h3 h4 h5
      refine ⟨g1, g2, g3, g4, ?_⟩
      rintro (h | h)
      · rcases List.mem_cons.mp h with h' | h'
        · simp at h'
        · exact g5 (Or.inl h')
      · exact g5 (Or.inr (h2.symm ▸ h))
    | finalize =>
      obtain ⟨h1, h2, h3, h4, h5⟩ := busFinalize_step hserN hcbN hmem hsub hdisc hcount hwf
      have hrun : busRun s (BusEvent.finalize :: es) = busRun (busFinalize s) es := rfl
      rw [hrun]
      obtain ⟨g1, g2, g3, g4, g5⟩ := ih (busFinalize s) hunh_es h1 h2 h3 h4
      exact ⟨g1, g2, g3, g4, fun _ => g5 (Or.inr h5)⟩

/-- C2: for every entry `(ser, cb)` placed in the pending-call table, and any
interleaving of un-intercepted incoming METHOD_RETURN/ERROR messages and
disconnect finalizations that includes the finalization, the callback is
invoked exactly once; each of its invocations carries either the reply whose
`reply_serial` matches its serial or the disconnect error; and the entry is
gone from the table at the end (it is removed at its first invocation). -/
theorem pending_call_exactly_once
    (table : List (Nat × Nat)) (events : List BusEvent)
    (hserN : (table.map Prod.fst).Nodup) (hcbN : (table.map Prod.snd).Nodup)
    (hunh : ∀ e ∈ events, eventUnhandled e = true)
    (hfin : BusEvent.finalize ∈ events)
    (ser cb : Nat) (hmem : (ser, cb) ∈ table) :
    countCb cb (busRun ⟨0, table, false, []⟩ events).invocations = 1 ∧
    (∀ inv ∈ (busRun ⟨0, table, false, []⟩ events).invocations, inv.1 = cb →
      inv.2 = CbArg.reply ser ∨ inv.2 = CbArg.disconnectErr) ∧
    (busRun ⟨0, table, false, []⟩ events).methodReturnHandlers = [] := by
  obtain ⟨g1, g2, g3, g4, g5⟩ :=
    busRun_inv hserN hcbN hmem events ⟨0, table, false, []⟩ hunh
      (List.Sublist.refl table)
      (by intro h; simp at h)
      (by simp [countCb, if_pos hmem])
      (by intro inv hinv; simp at hinv)
  have hempty : (busRun ⟨0, table, false, []⟩ events).methodReturnHandlers = [] :=
    g2 (g5 (Or.inl hfin))
  refine ⟨?_, g4, hempty⟩
  rw [hempty] at g3
  simpa using g3

/-- Witness for C2: two pending calls; the first completes with its reply, the
disconnect fires the second, and a late duplicate reply is ignored. -/
theorem pending_call_exactly_once_witness :
    countCb 10 (busRun ⟨0, [(1, 10), (2, 20)], false, []⟩
      [BusEvent.reply 1 false, BusEvent.finalize, BusEvent.reply 2 false]).invocations = 1 ∧
    (∀ inv ∈ (busRun ⟨0, [(1, 10), (2, 20)], false, []⟩
      [BusEvent.reply 1 false, BusEvent.finalize, BusEvent.reply 2 false]).invocations,
      inv.1 = 10 → inv.2 = CbArg.reply 1 ∨ inv.2 = CbArg.disconnectErr) ∧
    (busRun ⟨0, [(1, 10), (2, 20)], false, []⟩
      [BusEvent.reply 1 false, BusEvent.finalize, BusEvent.reply 2 false]).methodReturnHandlers =
      [] :=
  pending_call_exactly_once [(1, 10), (2, 20)]
    [BusEvent.reply 1 false, BusEvent.finalize, BusEvent.reply 2 false]
    (by decide) (by decide) (by decide) (by decide) 1 10 (by decide)

set_option maxHeartbeats 1000000 in
/-- A successfully constructed `Message` stores the constructor arguments in
its fields unchanged. -/
theorem mkMessage_fields
    {destination path interface member : DValue} {messageType flags : Nat}
    {errorName replySerial sender : DValue} {unixFds : List Nat}
    {signature : List Char} {body : DValue} {serial : Nat} {msg : DMessage}
    (h : mkMessage destination path interface member messageType flags errorName
      replySerial sender unixFds signature body serial = .ok msg) :
    msg.destination = destination ∧ msg.path = path ∧ msg.interface = interface ∧
    msg.member = member ∧ msg.messageType = messageType ∧ msg.flags = flags ∧
    msg.errorName = errorName ∧ msg.replySerial = replySerial ∧
    msg.sender = sender ∧ msg.signature = signature ∧ msg.body = body ∧
    msg.serial = serial := by
  unfold mkMessage at h
  repeat' split at h
  all_goals try dsimp only at h
  all_goals
    first
      | exact Except.noConfusion h
      | (injection h with h; subst h;
         exact ⟨rfl, rfl, rfl, rfl, rfl, rfl, rfl, rfl, rfl, rfl, rfl, rfl⟩)

/-- C9 (code bug): the cached branch of the GetMachineId handler replies with
the machine-id *string* as the body, not the one-element list `[machine_id]`
required by the claim and produced by the first-fetch branch. -/
theorem get_machine_id_cached_body_not_list :
    (defaultGetMachineIdCachedReply "0123abcd" c9msg).map
      (fun r => (r.messageType, r.signature, r.body)) =
      .ok (METHOD_RETURN, ['s'], DValue.string "0123abcd") ∧
    (defaultGetMachineIdFreshReply "0123abcd" c9msg).map (fun r => r.body) =
      .ok (DValue.list [DValue.string "0123abcd"]) ∧
    DValue.string "0123abcd" ≠ DValue.list [DValue.string "0123abcd"] := by
  refine ⟨rfl, rfl, fun h => DValue.noConfusion h⟩

/-- The `_interface_signal_notify` scan equals "path of the last matching
export". -/
theorem foldl_lastMatch (ifaceId : Nat) :
    ∀ (exports : List (String × List Nat)) (acc : Option String),
      exports.foldl (fun acc p => if p.2.contains ifaceId then some p.1 else acc) acc =
        match lastMatchingExportPath exports ifaceId with
        | some p => some p
        | Option.none => acc := by
  intro exports
  induction exports with
  | nil => intro acc; simp [lastMatchingExportPath]
  | cons x xs ih =>
    intro acc
    simp only [List.foldl_cons]
    rw [ih]
    simp only [lastMatchingExportPath, List.reverse_cons, List.find?_append]
    cases hfind : xs.reverse.find? (fun p => p.2.contains ifaceId) with
    | some e => simp [lastMatchingExportPath, hfind]
    | none =>
      by_cases hc : ifaceId ∈ x.2
      · simp [lastMatchingExportPath, hfind, hc, List.find?]
      · simp [lastMatchingExportPath, hfind, hc, List.find?]

/-- A successful `_interface_signal_notify` sends exactly one message, at the
path of the last matching export. -/
theorem interfaceSignalNotify_singleton
    (exports : List (String × List Nat)) (ifaceId : Nat) (iname member : String)
    (sig : List Char) (body : List DValue) (msgs : List DMessage)
    (h : interfaceSignalNotify exports ifaceId iname member sig body = .ok msgs) :
    ∃ p m, lastMatchingExportPath exports ifaceId = some p ∧ msgs = [m] ∧
      m.path = .string p ∧ m.interface = .string iname ∧ m.member = .string member ∧
      m.messageType = SIGNAL ∧ m.body = .list body := by
  unfold interfaceSignalNotify at h
  rw [foldl_lastMatch] at h
  cases hlast : lastMatchingExportPath exports ifaceId with
  | none => rw [hlast] at h; simp at h
  | some p =>
    rw [hlast] at h
    dsimp only at h
    cases hsig : newSignal p iname member sig body with
    | error e => rw [hsig] at h; simp at h
    | ok m =>
      rw [hsig] at h
      simp only [Except.ok.injEq] at h
      subst h
      unfold newSignal at hsig
      obtain ⟨_, hpath, hiface, hmem, htype, _, _, _, _, _, hbody, _⟩ := mkMessage_fields hsig
      exact ⟨p, m, rfl, rfl, hpath, hiface, hmem, htype, hbody⟩

/-- The per-bus fold of `_handle_signal` produces one result per bus, each a
single message. -/
theorem handleSignal_foldr (ifaceId : Nat) (iname member : String) (sig : List Char)
    (bodyList : List DValue) :
    ∀ (buses : List (List (String × List Nat))) (results : List (List DMessage)),
      buses.foldr (fun bus acc =>
        match acc with
        | .error e => .error e
        | .ok rest =>
          match interfaceSignalNotify bus ifaceId iname member sig bodyList with
          | .error e => .error e
          | .ok msgs => .ok (msgs :: rest))
        (Except.ok ([] : List (List DMessage))) = .ok results →
      results.length = buses.length ∧ ∀ r ∈ results, r.length = 1 := by
  intro buses
  induction buses with
  | nil =>
    intro results h
    simp only [List.foldr_nil, Except.ok.injEq] at h
    subst h
    exact ⟨rfl, fun r hr => absurd hr (List.not_mem_nil r)⟩
  | cons bus rest ih =>
    intro results h
    simp only [List.foldr_cons] at h
    cases hacc : rest.foldr (fun bus acc =>
        match acc with
        | .error e => .error e
        | .ok rest =>
          match interfaceSignalNotify bus ifaceId iname member sig bodyList with
          | .error e => .error e
          | .ok msgs => .ok (msgs :: rest))
        (Except.ok ([] : List (List DMessage))) with
    | error e => rw [hacc] at h; simp at h
    | ok rs =>
      rw [hacc] at h
      dsimp only at h
      cases hnot : interfaceSignalNotify bus ifaceId iname member sig bodyList with
      | error e => rw [hnot] at h; simp at h
      | ok msgs =>
        rw [hnot] at h
        simp only [Except.ok.injEq] at h
        subst h
        obtain ⟨hlen, hall⟩ := ih rs hacc
        obtain ⟨p, m, _, hm, _⟩ := interfaceSignalNotify_singleton _ _ _ _ _ _ msgs hnot
        refine ⟨by simp [hlen], ?_⟩
        intro r hr
        rcases List.mem_cons.mp hr with h' | h'
        · subst h'; rw [hm]; rfl
        · exact hall r h'

/-- C10: when one ServiceInterface instance is exported at several paths of a
bus, a single signal emission sends exactly one message on that bus — at the
path of the last matching export in the exported-object table — and
`_handle_signal` sends exactly one such message per bus holding the
interface. -/
theorem signal_one_message_per_bus_at_last_path
    (ifaceId : Nat) (iname member : String) (sig : List Char) :
    (∀ (exports : List (String × List Nat)) (body : List DValue) (msgs : List DMessage),
      interfaceSignalNotify exports ifaceId iname member sig body = .ok msgs →
      ∃ p m, lastMatchingExportPath exports ifaceId = some p ∧ msgs = [m] ∧
        m.path = .string p ∧ m.interface = .string iname ∧ m.member = .string member ∧
        m.messageType = SIGNAL ∧ m.body = .list body) ∧
    (∀ (buses : List (List (String × List Nat))) (sigTypesLen : Nat) (b : DValue)
        (results : List (List DMessage)),
      handleSignal buses ifaceId iname member sig sigTypesLen b = .ok results →
      results.length = buses.length ∧ ∀ r ∈ results, r.length = 1) := by
  constructor
  · intro exports body msgs h
    exact interfaceSignalNotify_singleton exports ifaceId iname member sig body msgs h
  · intro buses sigTypesLen b results h
    unfold handleSignal at h
    split at h
    · simp at h
    · exact handleSignal_foldr ifaceId iname member sig _ buses results h

/-- Witness for C10: interface 5 exported (aliased) at `/a` and `/b`; one
message is sent, at the later path `/b`. -/
theorem signal_one_message_per_bus_witness :
    c10msgs.length = 1 ∧ (∀ m ∈ c10msgs, m.path = DValue.string "/b") ∧
    lastMatchingExportPath [("/a", [5]), ("/b", [5])] 5 = some "/b" := by
  obtain ⟨hnotify, _⟩ :=
    signal_one_message_per_bus_at_last_path 5 "test.iface" "SomeSignal" []
  obtain ⟨p, m, hp, hm, hpath, _⟩ :=
    hnotify [("/a", [5]), ("/b", [5])] [] c10msgs rfl
  have hpb : p = "/b" := by
    have : some "/b" = some p := (rfl : lastMatchingExportPath [("/a", [5]), ("/b", [5])] 5 = some "/b").symm.trans hp
    injection this with h
    exact h.symm
  subst hpb
  refine ⟨by rw [hm]; rfl, ?_, rfl⟩
  intro m' hm'
  rw [hm] at hm'
  simp only [List.mem_singleton] at hm'
  subst hm'
  exact hpath

/-- `Message.new_error` succeeds for a valid error name on a message with a
non-zero serial and a `None`-or-valid sender, and produces the expected ERROR
fields. -/
theorem newError_ok (msg : DMessage) (name text : String)
    (hserial : msg.serial ≠ 0)
    (hsender : msg.sender = DValue.none ∨ dvBusNameValid msg.sender = true)
    (hname : is_interface_name_valid name = true) :
    (newError msg (.string name) (.string text)).map
      (fun r => (r.messageType, r.errorName, r.replySerial, r.body, r.destination)) =
      .ok (ERROR, .string name, .int msg.serial, .list [.string text], msg.sender) := by
  have hne : name ≠ "" := by
    intro h; subst h; simp [is_interface_name_valid] at hname
  have h1 : (msg.sender.truthy && !dvBusNameValid msg.sender) = false := by
    rcases hsender with h | h
    · rw [h]; rfl
    · simp [h]
  unfold newError mkMessage
  rw [show mkSignatureTree ['s'] = .ok ⟨['s'], [SigType.mk 's' []]⟩ from rfl]
  dsimp only
  rw [if_neg (show ¬((DValue.truthy msg.sender && !dvBusNameValid msg.sender) = true) from by
    simp [h1])]
  rw [if_neg (show ¬((DValue.truthy DValue.none && !dvInterfaceNameValid DValue.none) = true) from by
    decide)]
  rw [if_neg (show ¬((DValue.truthy DValue.none && !dvObjectPathValid DValue.none) = true) from by
    decide)]
  rw [if_neg (show ¬((DValue.truthy DValue.none && !dvMemberNameValid DValue.none) = true) from by
    decide)]
  rw [if_neg (show ¬((DValue.truthy (DValue.string name) &&
      !dvInterfaceNameValid (DValue.string name)) = true) from by
    simp [DValue.truthy, dvInterfaceNameValid, hname])]
  rw [if_neg (show ERROR ≠ METHOD_CALL from by decide)]
  rw [if_neg (show ERROR ≠ SIGNAL from by decide)]
  rw [if_pos (show ERROR = ERROR from rfl)]
  rw [if_neg (show ¬((!DValue.truthy (DValue.string name)) = true) from by
    simp [DValue.truthy, hne])]
  rw [if_neg (show ¬((!DValue.truthy (DValue.int (msg.serial : Int))) = true) from by
    simp [DValue.truthy, hserial])]
  rfl

/-- C7 (corrected): `SendReply.__exit__` compares exception classes with `==`:
exactly `DBusError` is converted to an ERROR reply with its declared name,
exactly `Exception` to a `ServiceError` reply — one reply each when a reply is
expected — while an exception of any other class (including subclasses of
either) matches neither check, so no reply is sent and the exception
propagates to the dispatch loop, which only logs it. -/
theorem send_reply_error_conversion (msg : DMessage) (e : RaisedExc) (tb : String)
    (hserial : msg.serial ≠ 0)
    (hsender : msg.sender = DValue.none ∨ dvBusNameValid msg.sender = true)
    (hname : is_interface_name_valid e.errName = true)
    (hflag : msg.flags &&& NO_REPLY_EXPECTED = 0) :
    (e.cls = ExcClass.dbusError →
      (sendReplyExit msg (some e) tb).map
        (List.map (fun r => (r.messageType, r.errorName, r.replySerial, r.body))) =
        .ok [(ERROR, DValue.string e.errName, DValue.int msg.serial,
          DValue.list [DValue.string e.text])]) ∧
    (e.cls = ExcClass.exception →
      (sendReplyExit msg (some e) tb).map
        (List.map (fun r => (r.messageType, r.errorName, r.replySerial))) =
        .ok [(ERROR, DValue.string SERVICE_ERROR, DValue.int msg.serial)]) ∧
    (∀ n, e.cls = ExcClass.other n → sendReplyExit msg (some e) tb = .ok []) := by
  have hcall : ∀ reply : DMessage, sendReplyCall msg reply = [reply] := by
    intro reply
    simp [sendReplyCall, hflag]
  refine ⟨?_, ?_, ?_⟩
  · intro hcls
    have hok := newError_ok msg e.errName e.text hserial hsender hname
    simp only [sendReplyExit, hcls]
    cases hne : newError msg (.string e.errName) (.string e.text) with
    | error err => rw [hne] at hok; simp [Except.map] at hok
    | ok reply =>
      rw [hne] at hok
      simp only [Except.map, Except.ok.injEq] at hok
      have ht : reply.messageType = ERROR := congrArg (fun t => t.1) hok
      have hen : reply.errorName = .string e.errName := congrArg (fun t => t.2.1) hok
      have hrs : reply.replySerial = .int msg.serial := congrArg (fun t => t.2.2.1) hok
      have hb : reply.body = .list [.string e.text] := congrArg (fun t => t.2.2.2.1) hok
      simp [Except.map, hcall reply, ht, hen, hrs, hb]
  · intro hcls
    have hok := newError_ok msg SERVICE_ERROR
      ("The service interface raised an error: " ++ e.text ++ ".\n" ++ tb)
      hserial hsender (by decide)
    simp only [sendReplyExit, hcls]
    cases hne : newError msg (.string SERVICE_ERROR)
        (.string ("The service interface raised an error: " ++ e.text ++ ".\n" ++ tb)) with
    | error err => rw [hne] at hok; simp [Except.map] at hok
    | ok reply =>
      rw [hne] at hok
      simp only [Except.map, Except.ok.injEq] at hok
      have ht : reply.messageType = ERROR := congrArg (fun t => t.1) hok
      have hen : reply.errorName = .string SERVICE_ERROR := congrArg (fun t => t.2.1) hok
      have hrs : reply.replySerial = .int msg.serial := congrArg (fun t => t.2.2.1) hok
      simp [Except.map, hcall reply, ht, hen, hrs]
  · intro n hcls
    simp [sendReplyExit, hcls]

/-- Witness for C7 (amended): a DBusError raised in a handler for the concrete
call `c9msg` yields exactly one ERROR reply carrying its declared name. -/
theorem send_reply_error_conversion_witness :
    (sendReplyExit c9msg (some ⟨ExcClass.dbusError, "test.error", "an error ocurred"⟩) "tb").map
      (List.map (fun r => (r.messageType, r.errorName, r.replySerial, r.body))) =
      .ok [(ERROR, DValue.string "test.error", DValue.int c9msg.serial,
        DValue.list [DValue.string "an error ocurred"])] :=
  (send_reply_error_conversion c9msg ⟨ExcClass.dbusError, "test.error", "an error ocurred"⟩
    "tb" (by decide) (Or.inr (by decide)) (by decide) (by decide)).1 rfl

/-- C7 counterexample: an exception of class `ValueError` — not *exactly*
`DBusError` nor *exactly* `Exception` — produces no reply at all (the claim
requires exactly one ServiceError reply for it). -/
theorem service_error_other_class_counterexample :
    sendReplyExit c9msg (some ⟨ExcClass.other "ValueError", "", "boom"⟩) "tb" = .ok [] ∧
    (sendReplyExit c9msg (some ⟨ExcClass.other "ValueError", "", "boom"⟩) "tb").map
      List.length = .ok 0 := by
  exact ⟨rfl, rfl⟩

/-- While the fixed header is still incomplete, one more byte is buffered and
the unmarshaller reports "need more bytes". -/
theorem step_header_incomplete (B : List Nat) (b : Nat) (h : B.length + 1 < 16) :
    unmarshall { headerPhaseState B with stream := [b] } =
      (headerPhaseState (B ++ [b]), .ok Option.none) := by
  have hm1 : 1 ≤ 16 - B.length := by omega
  have h1 : ([b].take (16 - B.length)) = [b] :=
    List.take_of_length_le (by simpa using hm1)
  have h2 : ([b].drop (16 - B.length)) = [] :=
    List.drop_eq_nil_of_le (by simpa using hm1)
  have hc : ¬(1 + B.length = 16) := by omega
  have hz : ¬(16 - B.length = 0) := by omega
  simp [unmarshall, headerPhaseState, initUState, readHeader, read_to_offset, streamRead,
    HEADER_SIGNATURE_SIZE, h1, h2, hc, hz]

/-- The sixteenth byte completes the fixed header; it is parsed and the body
read begins (and immediately reports "need more bytes" for `ml ≥ 1`). -/
theorem step_header_complete (B : List Nat) (b : Nat) (hlen : B.length = 15)
    (mt fl bl sr hl ml en : Nat)
    (hparse : parseFixedHeader (B ++ [b]) = .ok (mt, fl, bl, sr, hl, ml, en))
    (hml : 1 ≤ ml) :
    unmarshall { headerPhaseState B with stream := [b] } =
      (bodyPhaseState (B ++ [b]) mt fl bl sr hl ml en, .ok Option.none) := by
  have h1 : ([b].take (16 - B.length)) = [b] :=
    List.take_of_length_le (by simp [hlen])
  have h2 : ([b].drop (16 - B.length)) = [] :=
    List.drop_eq_nil_of_le (by simp [hlen])
  have hz : ¬(16 - B.length = 0) := by omega
  have hc : (1 + B.length = 16) := by omega
  have hmz : ¬(16 + ml - (B.length + 1) = 0) := by omega
  simp [unmarshall, headerPhaseState, bodyPhaseState, initUState, readHeader, readBody,
    read_to_offset, streamRead, HEADER_SIGNATURE_SIZE, h1, h2, hz, hc, hparse, hmz]

/-- While the body is still incomplete, one more byte is buffered and the
unmarshaller reports "need more bytes". -/
theorem step_body_incomplete (B : List Nat) (b : Nat) (mt fl bl sr hl ml en : Nat)
    (hlt : B.length + 1 < 16 + ml) :
    unmarshall { bodyPhaseState B mt fl bl sr hl ml en with stream := [b] } =
      (bodyPhaseState (B ++ [b]) mt fl bl sr hl ml en, .ok Option.none) := by
  have hm1 : 1 ≤ (16 + ml) - B.length := by omega
  have h1 : ([b].take ((16 + ml) - B.length)) = [b] :=
    List.take_of_length_le (by simpa using hm1)
  have h2 : ([b].drop ((16 + ml) - B.length)) = [] :=
    List.drop_eq_nil_of_le (by simpa using hm1)
  have hz : ¬((16 + ml) - B.length = 0) := by omega
  have hc : ¬(1 + B.length = 16 + ml) := by omega
  simp [unmarshall, bodyPhaseState, initUState, readBody, read_to_offset, streamRead,
    HEADER_SIGNATURE_SIZE, h1, h2, hz, hc]

/-- The final byte of the frame completes the buffer and the body is decoded
— a pure function of the completed buffer and the remembered header. -/
theorem step_body_complete (B : List Nat) (b : Nat) (mt fl bl sr hl ml en : Nat)
    (m : DMessage)
    (hlen : B.length + 1 = 16 + ml)
    (hdec : decodeBody en (B ++ [b]) hl bl mt fl sr [] = .ok m) :
    (unmarshall { bodyPhaseState B mt fl bl sr hl ml en with stream := [b] }).2 =
      .ok (some m) := by
  have hm1 : 1 ≤ (16 + ml) - B.length := by omega
  have h1 : ([b].take ((16 + ml) - B.length)) = [b] :=
    List.take_of_length_le (by simpa using hm1)
  have hz : ¬((16 + ml) - B.length = 0) := by omega
  have hc : (1 + B.length = 16 + ml) := by omega
  simp [unmarshall, bodyPhaseState, initUState, readBody, read_to_offset, streamRead,
    HEADER_SIGNATURE_SIZE, h1, hz, hc, hdec]

/-- Feeding the rest of the frame one byte at a time from an in-progress body
state completes with the message decoded from the full buffer. -/
theorem feed_body_phase (bs : List Nat) (mt fl bl sr hl ml en : Nat) (m : DMessage)
    (hlen : 16 + ml ≤ bs.length)
    (hdec : decodeBody en (bs.take (16 + ml)) hl bl mt fl sr [] = .ok m) :
    ∀ d k, k + d + 1 = 16 + ml → 16 ≤ k →
      (feedBytes (bodyPhaseState (bs.take k) mt fl bl sr hl ml en) (bs.drop k)).2 =
        .ok (some m) := by
  intro d
  induction d with
  | zero =>
    intro k hk _
    have hklt : k < bs.length := by omega
    have hdrop : bs.drop k = bs[k] :: bs.drop (k + 1) :=
      List.drop_eq_getElem_cons hklt
    have htake : bs.take k ++ [bs[k]] = bs.take (k + 1) := by
      rw [List.take_succ, List.getElem?_eq_getElem hklt]
      rfl
    have hlenB : (bs.take k).length = k := by
      simp [List.length_take]
      omega
    rw [hdrop]
    have hstep := step_body_complete (bs.take k) (bs[k]) mt fl bl sr hl ml en m
      (by omega : (bs.take k).length + 1 = 16 + ml)
      (by rw [htake]
          have : k + 1 = 16 + ml := by omega
          rw [this]
          exact hdec)
    simp only [feedBytes]
    rcases hu : unmarshall { bodyPhaseState (bs.take k) mt fl bl sr hl ml en with
        stream := (bodyPhaseState (bs.take k) mt fl bl sr hl ml en).stream ++ [bs[k]] } with ⟨s', r⟩
    have hr : r = .ok (some m) := by
      have : (bodyPhaseState (bs.take k) mt fl bl sr hl ml en).stream = [] := rfl
      rw [this, List.nil_append] at hu
      have := hstep
      rw [hu] at this
      exact this
    subst hr
    rfl
  | succ d ih =>
    intro k hk hk16
    have hklt : k < bs.length := by omega
    have hdrop : bs.drop k = bs[k] :: bs.drop (k + 1) :=
      List.drop_eq_getElem_cons hklt
    have htake : bs.take k ++ [bs[k]] = bs.take (k + 1) := by
      rw [List.take_succ, List.getElem?_eq_getElem hklt]
      rfl
    have hlenB : (bs.take k).length = k := by
      simp [List.length_take]
      omega
    rw [hdrop]
    have hstep := step_body_incomplete (bs.take k) (bs[k]) mt fl bl sr hl ml en
      (by omega : (bs.take k).length + 1 < 16 + ml)
    simp only [feedBytes]
    have hstream : (bodyPhaseState (bs.take k) mt fl bl sr hl ml en).stream ++ [bs[k]] =
        [bs[k]] := rfl
    rw [hstream, hstep, htake]
    exact ih (k + 1) (by omega) (by omega)

/-- Feeding the frame one byte at a time from an in-progress header state
completes with the message decoded from the full buffer. -/
theorem feed_header_phase (bs : List Nat) (mt fl bl sr hl ml en : Nat) (m : DMessage)
    (hlen : 16 + ml ≤ bs.length) (hml : 1 ≤ ml)
    (hparse : parseFixedHeader (bs.take 16) = .ok (mt, fl, bl, sr, hl, ml, en))
    (hdec : decodeBody en (bs.take (16 + ml)) hl bl mt fl sr [] = .ok m) :
    ∀ d k, k + d + 1 = 16 →
      (feedBytes (headerPhaseState (bs.take k)) (bs.drop k)).2 = .ok (some m) := by
  intro d
  induction d with
  | zero =>
    intro k hk
    have hklt : k < bs.length := by omega
    have hdrop : bs.drop k = bs[k] :: bs.drop (k + 1) :=
      List.drop_eq_getElem_cons hklt
    have htake : bs.take k ++ [bs[k]] = bs.take (k + 1) := by
      rw [List.take_succ, List.getElem?_eq_getElem hklt]
      rfl
    have hlenB : (bs.take k).length = k := by
      simp [List.length_take]
      omega
    have hk16 : k + 1 = 16 := by omega
    rw [hdrop]
    have hstep := step_header_complete (bs.take k) (bs[k])
      (by omega : (bs.take k).length = 15) mt fl bl sr hl ml en
      (by rw [htake, hk16]; exact hparse) hml
    simp only [feedBytes]
    have hstream : (headerPhaseState (bs.take k)).stream ++ [bs[k]] = [bs[k]] := rfl
    rw [hstream, hstep, htake, hk16]
    exact feed_body_phase bs mt fl bl sr hl ml en m hlen hdec (ml - 1) 16
      (by omega) (by omega)
  | succ d ih =>
    intro k hk
    have hklt : k < bs.length := by omega
    have hdrop : bs.drop k = bs[k] :: bs.drop (k + 1) :=
      List.drop_eq_getElem_cons hklt
    have htake : bs.take k ++ [bs[k]] = bs.take (k + 1) := by
      rw [List.take_succ, List.getElem?_eq_getElem hklt]
      rfl
    have hlenB : (bs.take k).length = k := by
      simp [List.length_take]
      omega
    rw [hdrop]
    have hstep := step_header_incomplete (bs.take k) (bs[k]) (by omega)
    simp only [feedBytes]
    have hstream : (headerPhaseState (bs.take k)).stream ++ [bs[k]] = [bs[k]] := rfl
    rw [hstream, hstep, htake]
    exact ih (k + 1) (by omega)

/-- Analysis of a successful one-shot decode: the frame parses a fixed header,
declares a positive `msg_len`, is entirely present, and its completed buffer
decodes to the message. -/
theorem oneshot_spec (bs : List Nat) (m : DMessage)
    (h : unmarshallOneShot bs = .ok (some m)) :
    ∃ mt fl bl sr hl ml en,
      parseFixedHeader (bs.take 16) = .ok (mt, fl, bl, sr, hl, ml, en) ∧
      1 ≤ ml ∧ 16 + ml ≤ bs.length ∧
      decodeBody en (bs.take (16 + ml)) hl bl mt fl sr [] = .ok m := by
  by_cases hbs : bs = []
  · subst hbs
    simp [unmarshallOneShot, unmarshall, readHeader, read_to_offset, streamRead,
      HEADER_SIGNATURE_SIZE, initUState] at h
  · have hpos : 0 < bs.length := List.length_pos.mpr hbs
    have hbsE : bs.isEmpty = false := by simpa [List.isEmpty_iff] using hbs
    have htne : ¬(bs.take 16 = []) := by
      intro hcon
      have hlen := congrArg List.length hcon
      rw [List.length_take, List.length_nil] at hlen
      omega
    by_cases hlen16 : 16 ≤ bs.length
    · simp only [unmarshallOneShot, unmarshall, readHeader, read_to_offset, streamRead,
        HEADER_SIGNATURE_SIZE, initUState] at h
      simp only [Option.isNone_none, if_true, ite_true, List.isEmpty_eq_true, hbs,
        if_false, ite_false, hbsE, Bool.false_eq_true, List.length_nil,
        Nat.sub_zero, List.nil_append, reduceIte, Nat.add_zero, ne_eq] at h
      rw [if_neg (show ¬(16 = 0) from by decide)] at h
      dsimp only at h
      rw [if_neg htne] at h
      rw [List.length_take] at h
      rw [if_neg (not_not_intro (show min 16 bs.length = 16 from by omega))] at h
      dsimp only at h
      rw [List.nil_append] at h
      rcases hparse : parseFixedHeader (bs.take 16) with e | p
      · rw [hparse] at h
        dsimp only at h
        split at h <;> simp at h
      · obtain ⟨mt, fl, bl, sr, hl, ml, en⟩ := p
        rw [hparse] at h
        dsimp only at h
        simp only [readBody, read_to_offset, streamRead, HEADER_SIGNATURE_SIZE,
          Option.getD_some, Nat.sub_zero] at h
        rw [List.length_take] at h
        by_cases hml0 : ml = 0
        · rw [if_pos (show 16 + ml - min 16 bs.length = 0 from by omega)] at h
          simp at h
        · rw [if_neg (show ¬(16 + ml - min 16 bs.length = 0) from by omega)] at h
          by_cases h17 : bs.length ≤ 16
          · have hdnil : bs.drop 16 = [] := List.drop_eq_nil_of_le h17
            rw [hdnil] at h
            simp at h
          · have hdE : (bs.drop 16).isEmpty = false := by
              rw [List.isEmpty_eq_false]
              intro hcon
              have hlen := congrArg List.length hcon
              rw [List.length_drop, List.length_nil] at hlen
              omega
            rw [hdE] at h
            rw [if_neg (show ¬(false = true) from by simp)] at h
            dsimp only at h
            have hmiss : 16 + ml - min 16 bs.length = ml := by omega
            rw [hmiss] at h
            have hdataE : ((bs.drop 16).take ml).isEmpty = false := by
              rw [List.isEmpty_eq_false]
              intro hcon
              have hlen := congrArg List.length hcon
              rw [List.length_take, List.length_drop, List.length_nil] at hlen
              omega
            rw [hdataE] at h
            rw [if_neg (show ¬(false = true) from by simp)] at h
            rw [List.length_take, List.length_drop] at h
            by_cases hfull : 16 + ml ≤ bs.length
            · rw [if_neg (not_not_intro
                (show min ml (bs.length - 16) + min 16 bs.length = 16 + ml from by omega))] at h
              dsimp only at h
              have hbufeq : bs.take 16 ++ (bs.drop 16).take ml = bs.take (16 + ml) := by
                rw [List.take_add]
              rw [hbufeq] at h
              simp only [Option.getD_some] at h
              rcases hdec : decodeBody en (bs.take (16 + ml)) hl bl mt fl sr [] with e | m'
              · rw [hdec] at h
                dsimp only at h
                split at h <;> simp at h
              · rw [hdec] at h
                dsimp only at h
                simp only [Except.ok.injEq, Option.some.injEq] at h
                subst h
                exact ⟨mt, fl, bl, sr, hl, ml, en, rfl, by omega, hfull, hdec⟩
            · rw [if_pos
                (show ¬(min ml (bs.length - 16) + min 16 bs.length = 16 + ml) from by omega)] at h
              dsimp only at h
              simp at h
    · have hlt : bs.length < 16 := by omega
      simp [unmarshallOneShot, unmarshall, readHeader, read_to_offset, streamRead,
        HEADER_SIGNATURE_SIZE, initUState, hbsE, htne, hlt] at h

/-- Step computation on the concrete frame: `_read_header` consumes the fixed
header of `c5frame`. -/
theorem c5_read_header :
    readHeader { initUState with stream := c5frame } = (c5state1, Option.none) := rfl

/-- Step computation on the concrete frame: `_read_body` buffers the rest of
`c5frame` and decodes `c5decoded`. -/
theorem c5_read_body : readBody c5state1 = (c5state2, Except.ok c5decoded) := rfl

/-- The one-shot decode of the concrete frame. -/
theorem c5_oneshot : unmarshallOneShot c5frame = Except.ok (some c5decoded) := by
  unfold unmarshallOneShot unmarshall
  rw [if_pos (show ({ initUState with stream := c5frame } : UState).messageType.isNone = true
    from rfl)]
  rw [c5_read_header]
  dsimp only
  rw [c5_read_body]

/-- C5: for every marshalled frame that the one-shot unmarshaller decodes to a
message, feeding the same bytes one byte at a time — each premature call
returning `None` while the state retains the buffered bytes, the detected
endianness and header/body lengths — produces exactly the same decoded
message: the incremental decode refines the one-shot decode. -/
theorem unmarshaller_resumable (bs : List Nat) (m : DMessage)
    (h : unmarshallOneShot bs = .ok (some m)) :
    (feedBytes initUState bs).2 = .ok (some m) := by
  obtain ⟨mt, fl, bl, sr, hl, ml, en, hparse, hml, hlen, hdec⟩ := oneshot_spec bs m h
  have h0 := feed_header_phase bs mt fl bl sr hl ml en m hlen hml hparse hdec 15 0
    (by omega)
  rw [List.take_zero, List.drop_zero] at h0
  rw [show headerPhaseState [] = initUState from rfl] at h0
  exact h0

/-- Witness: the 24-byte METHOD_RETURN frame `c5frame` decodes one-shot to a
message, and the byte-at-a-time decode yields the same message. -/
theorem unmarshaller_resumable_witness :
    ∃ m, unmarshallOneShot c5frame = .ok (some m) ∧
      (feedBytes initUState c5frame).2 = .ok (some m) :=
  ⟨c5decoded, c5_oneshot, unmarshaller_resumable c5frame c5decoded c5_oneshot⟩

end DBusNext
